import Mathlib

/-!
FFmpegInterop sample pipeline (VioletCore).

A shallow embedding of `MediaSampleProvider.cpp`, of the open, start and seek
paths and the pixel-format callback of `FFmpegInteropMSS.cpp`, and of the
stream descriptor, frame conversion and sample properties of
`UncompressedVideoSampleProvider.cpp`, followed by the properties proved
about them. The reader and the decode step of the uncompressed providers are
not among these files; where a property depends on them they are modelled from
the specification, and marked so.

Conventions of the embedding:

* `LONGLONG` / `int64_t` values are integers; every arithmetic operation the
  code performs on them is reduced to the signed 64-bit range with `wrap64`.
* `double` is not available as a type one can reason about, so the handful
  of floating-point operations the code uses are taken as a parameter
  (`DoubleOps`); `ieeeDouble` is the instance that rounds as IEEE 754
  binary64 does, `exactDouble` one that computes in exact fractions.
* `std::queue<AVPacket*>` is a list, front of the queue first.
* A method that mutates `this` becomes a function returning the new object.
-/

namespace FFmpegInterop

/-! ## Machine integers and result codes -/

abbrev HRESULT := Int
abbrev LONGLONG := Int
abbrev IBuffer := Nat

def S_OK : HRESULT := 0
def S_FALSE : HRESULT := 1
def E_FAIL : HRESULT := -2147467259

def AV_NOPTS_VALUE : LONGLONG := -9223372036854775808
def AVERROR_EOF : Int := -541478725
def AVERROR_READ_ERROR : Int := -5
def AVSEEK_FLAG_BACKWARD : Int := 1

/-- Reduction of an integer to the signed 64-bit range (two's complement). -/
def wrap64 (x : Int) : Int :=
  (x + 9223372036854775808) % 18446744073709551616 - 9223372036854775808

/-- Predicate saying that an integer is representable as a signed 64-bit value. -/
def InInt64 (x : Int) : Prop :=
  -9223372036854775808 ≤ x ∧ x ≤ 9223372036854775807

instance (x : Int) : Decidable (InInt64 x) := by
  unfold InInt64; exact inferInstance

/-- Addition of two `LONGLONG` values. -/
def add64 (a b : LONGLONG) : LONGLONG := wrap64 (a + b)
/-- Subtraction of two `LONGLONG` values. -/
def sub64 (a b : LONGLONG) : LONGLONG := wrap64 (a - b)
/-- Multiplication of two `LONGLONG` values. -/
def mul64 (a b : LONGLONG) : LONGLONG := wrap64 (a * b)

/-! ## Floating point -/

structure AVRational where
  num : Int
  den : Int
deriving DecidableEq, Repr

/-- The operations on `double` that the code uses: conversion of an integer,
product, quotient, and the cast back to `long long`. -/
structure DoubleOps (D : Type) where
  ofInt : Int → D
  mul : D → D → D
  div : D → D → D
  toLONGLONG : D → LONGLONG

/-- Conversion of a rational to `double`: `a.num / (double) a.den`. -/
def av_q2d {D : Type} (F : DoubleOps D) (a : AVRational) : D :=
  F.div (F.ofInt a.num) (F.ofInt a.den)

/-- Exact arithmetic on fractions `(numerator, denominator)`; the cast to
`long long` truncates toward zero. This is not the arithmetic of the program,
which rounds every result to a `double` (see `ieeeDouble`); it serves to run
the model on concrete inputs at which rounding does not change the integers
that come out. -/
def exactDouble : DoubleOps (Int × Int) where
  ofInt n := (n, 1)
  mul x y := (x.1 * y.1, x.2 * y.2)
  div x y := (x.1 * y.2, x.2 * y.1)
  toLONGLONG x := Int.tdiv x.1 x.2

/-- The rational number a fraction `(numerator, denominator)` stands for. -/
def fractionValue (x : Int × Int) : ℚ := (x.1 : ℚ) / (x.2 : ℚ)

/-- Scaling step of `roundBinary64`: the fraction `a / b` is doubled or halved
until it lies in `[2^52, 2^53)`, and `e` counts the halvings minus the
doublings, so that `a / b * 2^e` keeps its value. The first argument bounds
the number of steps. -/
def roundBinary64.scale : Nat → Nat → Nat → Int → Nat × Nat × Int
  | 0, a, b, e => (a, b, e)
  | fuel + 1, a, b, e =>
    if a < 4503599627370496 * b then roundBinary64.scale fuel (2 * a) b (e - 1)
    else if 9007199254740992 * b ≤ a then roundBinary64.scale fuel a (2 * b) (e + 1)
    else (a, b, e)

/-- Rounding of a fraction to the nearest number with a significand of 53
bits, ties to the even significand: the rounding IEEE 754 prescribes for every
`double` operation whose result is in the normal range (overflow, subnormal
results and division by zero are not modelled; a zero denominator gives 0).
The result is a fraction whose denominator is a power of two. -/
def roundBinary64 (x : Int × Int) : Int × Int :=
  if x.1 = 0 ∨ x.2 = 0 then (0, 1)
  else
    let s := roundBinary64.scale 2200 x.1.natAbs x.2.natAbs 0
    let q := s.1 / s.2.1
    let r := s.1 % s.2.1
    let m : Int :=
      if 2 * r < s.2.1 then q
      else if s.2.1 < 2 * r then q + 1
      else if q % 2 = 0 then q else q + 1
    let sign : Int := if (x.1 < 0 ∧ 0 < x.2) ∨ (0 < x.1 ∧ x.2 < 0) then -1 else 1
    if 0 ≤ s.2.2 then (sign * m * 2 ^ s.2.2.toNat, 1)
    else (sign * m, 2 ^ (-s.2.2).toNat)

/-- The arithmetic of the program: `double` operations as IEEE 754 binary64
defines them, each the exact result rounded with `roundBinary64`; the cast to
`long long` truncates toward zero. -/
def ieeeDouble : DoubleOps (Int × Int) where
  ofInt n := roundBinary64 (n, 1)
  mul x y := roundBinary64 (x.1 * y.1, x.2 * y.2)
  div x y := roundBinary64 (x.1 * y.2, x.2 * y.1)
  toLONGLONG x := Int.tdiv x.1 x.2

/-- Truncation of a rational number toward zero: what the cast `LONGLONG(x)`
yields for a `double` of that value within the 64-bit range. -/
def truncQ (x : ℚ) : Int := if 0 ≤ x then ⌊x⌋ else ⌈x⌉

/-- What double arithmetic guarantees about the two products the constructor
forms from the stream start `w` (in seconds): read through `val` as rational
numbers, the products `w * 1000000` and `w * 10000000` are off by a relative
error of at most 2^-53 (they are rounded to nearest, the constants being
exact), and the casts of both truncate toward zero. -/
structure StartOffsetRounding {D : Type} (F : DoubleOps D) (val : D → ℚ) (w : D) : Prop where
  mul6 : |val (F.mul w (F.ofInt 1000000)) - val w * 1000000|
    ≤ |val w * 1000000| / 9007199254740992
  mul7 : |val (F.mul w (F.ofInt 10000000)) - val w * 10000000|
    ≤ |val w * 10000000| / 9007199254740992
  cast6 : F.toLONGLONG (F.mul w (F.ofInt 1000000)) = truncQ (val (F.mul w (F.ofInt 1000000)))
  cast7 : F.toLONGLONG (F.mul w (F.ofInt 10000000)) = truncQ (val (F.mul w (F.ofInt 10000000)))

/-! ## FFmpeg data -/

structure AVPacket where
  stream_index : Int
  pts : LONGLONG
  duration : LONGLONG
  data : Nat
deriving DecidableEq, Repr

structure AVStream where
  time_base : AVRational
  start_time : LONGLONG
deriving DecidableEq, Repr

instance : Inhabited AVStream := ⟨⟨⟨0, 1⟩, 0⟩⟩

/-- The demuxer context. `packets` is what successive `av_read_frame` calls
deliver from the current read position: `some p` is a packet, `none` a read
error, the end of the list is the end of the file. -/
structure AVFormatContext where
  start_time : LONGLONG
  duration : LONGLONG
  streams : List AVStream
  packets : List (Option AVPacket)
deriving DecidableEq, Repr

/-- Element `streams[i]` of the stream table. -/
def AVFormatContext.stream (ctx : AVFormatContext) (i : Int) : AVStream :=
  ctx.streams.getD i.toNat default

/-- The decoder. `internal` stands for whatever the decoder holds between
calls (input it was fed and has not yet turned into output). -/
structure AVCodecContext where
  internal : List AVPacket
deriving DecidableEq, Repr

/-- Reset of the decoder: its internal buffers are discarded. -/
def avcodec_flush_buffers (c : AVCodecContext) : AVCodecContext :=
  { c with internal := [] }

/-! ## MediaSampleProvider -/

structure MediaSampleProvider where
  m_packetQueue : List AVPacket
  m_nextPacketPts : LONGLONG
  m_isEnabled : Bool
  m_isDiscontinuous : Bool
  m_startOffset : LONGLONG
  m_streamIndex : Int
  m_pAvCodecCtx : AVCodecContext
deriving DecidableEq, Repr

namespace MediaSampleProvider

/-- Constructor body (`MediaSampleProvider.cpp` lines 26-55). `fields` holds
the values the members have before the body runs; the body assigns only
`m_startOffset`, and only when the container start time is not zero. -/
def ctor {D : Type} (F : DoubleOps D) (avFormatCtx : AVFormatContext)
    (streamIndex : Int) (fields : MediaSampleProvider) : MediaSampleProvider :=
  let this := { fields with m_streamIndex := streamIndex }
  if avFormatCtx.start_time ≠ 0 then
    let st := avFormatCtx.stream this.m_streamIndex
    let streamStartTime :=
      F.toLONGLONG (F.mul (F.mul (av_q2d F st.time_base) (F.ofInt st.start_time))
        (F.ofInt 1000000))
    if avFormatCtx.start_time = streamStartTime then
      { this with m_startOffset :=
          F.toLONGLONG (F.mul (F.mul (av_q2d F st.time_base) (F.ofInt st.start_time))
            (F.ofInt 10000000)) }
    else
      { this with m_startOffset := mul64 avFormatCtx.start_time 10 }
  else this

/-- Method `QueuePacket`: append when enabled, otherwise free the packet. -/
def QueuePacket (this : MediaSampleProvider) (packet : AVPacket) : MediaSampleProvider :=
  if this.m_isEnabled then
    { this with m_packetQueue := this.m_packetQueue ++ [packet] }
  else this

/-- Method `PopPacket`: the front packet, or null on an empty queue. -/
def PopPacket (this : MediaSampleProvider) : Option AVPacket × MediaSampleProvider :=
  match this.m_packetQueue with
  | [] => (none, this)
  | p :: rest => (some p, { this with m_packetQueue := rest })

/-- The loop of `Flush`: `while (!m_packetQueue.empty()) PopPacket()` and free;
the first argument bounds the number of iterations. -/
def Flush.loop : Nat → MediaSampleProvider → MediaSampleProvider
  | 0, this => this
  | fuel + 1, this =>
    if this.m_packetQueue.isEmpty then this
    else Flush.loop fuel (PopPacket this).2

/-- Method `Flush`. The loop is given as many iterations as the queue has
packets. -/
def Flush (this : MediaSampleProvider) : MediaSampleProvider :=
  let this := Flush.loop this.m_packetQueue.length this
  { this with
    m_pAvCodecCtx := avcodec_flush_buffers this.m_pAvCodecCtx
    m_isDiscontinuous := true }

/-- Method `EnableStream`. -/
def EnableStream (this : MediaSampleProvider) : MediaSampleProvider :=
  { this with m_isEnabled := true }

/-- Method `DisableStream`. -/
def DisableStream (this : MediaSampleProvider) : MediaSampleProvider :=
  { Flush this with m_isEnabled := false }

end MediaSampleProvider

/-! ## What a provider reaches through `m_pReader` -/

/-- The object a provider method runs on together with what it can reach: the
demuxer context and the other provider registered with the reader. -/
structure Env where
  self : MediaSampleProvider
  avFormatCtx : AVFormatContext
  sibling : Option MediaSampleProvider
deriving DecidableEq, Repr

/-- Modelled from the spec: `FFmpegReader::ReadPacket`, whose file is not among
the sources. It reads the next container packet; a failed read (end of file
or error) returns a negative code and queues nothing; a packet is handed to
`QueuePacket` of the provider whose stream index it carries and is discarded
when no provider is registered for that stream. -/
def FFmpegReader.ReadPacket (e : Env) : Int × Env :=
  match e.avFormatCtx.packets with
  | [] => (AVERROR_EOF, e)
  | none :: rest =>
    (AVERROR_READ_ERROR, { e with avFormatCtx := { e.avFormatCtx with packets := rest } })
  | some pkt :: rest =>
    let e1 := { e with avFormatCtx := { e.avFormatCtx with packets := rest } }
    if pkt.stream_index = e1.self.m_streamIndex then
      (0, { e1 with self := e1.self.QueuePacket pkt })
    else
      match e1.sibling with
      | some other =>
        if pkt.stream_index = other.m_streamIndex then
          (0, { e1 with sibling := some (other.QueuePacket pkt) })
        else (0, e1)
      | none => (0, e1)

/-- Outcome of `GetNextPacket`: the result code, the packet stored through
`avPacket` (if any), the two reference arguments, and the objects after the
call. -/
structure PacketResult where
  hr : HRESULT
  avPacket : Option AVPacket
  packetPts : LONGLONG
  packetDuration : LONGLONG
  env : Env
deriving DecidableEq, Repr

namespace MediaSampleProvider

/-- The reading loop of `GetNextPacket`:
`while (m_packetQueue.empty()) if (m_pReader->ReadPacket() < 0) break;`.
The first argument bounds the number of iterations; `none` means the bound
was reached before the loop ended. -/
def GetNextPacket.loop : Nat → Env → Option Env
  | 0, _ => none
  | fuel + 1, e =>
    if e.self.m_packetQueue.isEmpty then
      let r := FFmpegReader.ReadPacket e
      if r.1 < 0 then some r.2 else GetNextPacket.loop fuel r.2
    else some e

/-- The part of `GetNextPacket` after the reading loop (lines 159-184). -/
def GetNextPacket.take (e : Env) (packetPts packetDuration : LONGLONG) : PacketResult :=
  if ¬ e.self.m_packetQueue.isEmpty then
    match e.self.PopPacket with
    | (some packet, this) =>
      let packetDuration := packet.duration
      if packet.pts ≠ AV_NOPTS_VALUE then
        let packetPts := packet.pts
        { hr := S_OK, avPacket := some packet, packetPts := packetPts
          packetDuration := packetDuration
          env := { e with self :=
            { this with m_nextPacketPts := add64 packetPts packetDuration } } }
      else
        let packetPts := this.m_nextPacketPts
        { hr := S_OK, avPacket := some packet, packetPts := packetPts
          packetDuration := packetDuration
          env := { e with self :=
            { this with m_nextPacketPts := add64 this.m_nextPacketPts packetDuration } } }
    | (none, this) =>
      -- `PopPacket` returned null: not reachable behind the emptiness test
      { hr := S_OK, avPacket := none, packetPts := packetPts
        packetDuration := packetDuration, env := { e with self := this } }
  else
    { hr := S_FALSE, avPacket := none, packetPts := packetPts
      packetDuration := packetDuration, env := e }

/-- Method `GetNextPacket`. The reading loop is given one iteration more than
the demuxer has reads left; `none` would mean that this was not enough. -/
def GetNextPacket (e : Env) (packetPts packetDuration : LONGLONG) : Option PacketResult :=
  match GetNextPacket.loop (e.avFormatCtx.packets.length + 1) e with
  | some e1 => some (GetNextPacket.take e1 packetPts packetDuration)
  | none => none

end MediaSampleProvider

/-! ## Samples -/

abbrev MediaStreamSamplePropertySet := List (String × Int)

structure MediaStreamSample where
  Buffer : IBuffer
  Timestamp : LONGLONG
  Duration : LONGLONG
  Discontinuous : Bool
  ExtendedProperties : MediaStreamSamplePropertySet
deriving DecidableEq, Repr

/-- Outcome of `CreateNextSampleBuffer`: the result code, the buffer, the two
reference arguments `pts` and `dur`, and the objects after the call. -/
structure DecodeResult where
  hr : HRESULT
  buffer : IBuffer
  pts : LONGLONG
  dur : LONGLONG
  env : Env

/-- The virtual members a concrete provider supplies. `CreateNextSampleBuffer`
(the decode step) is implemented outside the sources at hand and is a
parameter; `SetSampleProperties` adds entries to the extended properties
of the sample. -/
structure SampleProviderImpl where
  CreateNextSampleBuffer : Env → DecodeResult
  SetSampleProperties :
    MediaSampleProvider → MediaStreamSamplePropertySet → HRESULT × MediaStreamSamplePropertySet

/-- A decode step that leaves the discontinuity flag of its provider alone. -/
def SampleProviderImpl.KeepsDiscontinuous (impl : SampleProviderImpl) : Prop :=
  ∀ e : Env, (impl.CreateNextSampleBuffer e).env.self.m_isDiscontinuous
    = e.self.m_isDiscontinuous

namespace MediaSampleProvider

/-- The conversion `LONGLONG(av_q2d(time_base) * 10000000 * x)` of
`GetNextSample`, from the stream time-base to 100 ns ticks. -/
def toTicks {D : Type} (F : DoubleOps D) (time_base : AVRational) (x : LONGLONG) : LONGLONG :=
  F.toLONGLONG (F.mul (F.mul (av_q2d F time_base) (F.ofInt 10000000)) (F.ofInt x))

/-- Method `GetNextSample` (lines 102-143). -/
def GetNextSample {D : Type} (F : DoubleOps D) (impl : SampleProviderImpl) (e : Env) :
    Option MediaStreamSample × Env :=
  if e.self.m_isEnabled then
    let r := impl.CreateNextSampleBuffer e
    let e1 := r.env
    if r.hr = S_OK then
      let time_base := (e1.avFormatCtx.stream e1.self.m_streamIndex).time_base
      let pts := sub64 (toTicks F time_base r.pts) e1.self.m_startOffset
      let dur := toTicks F time_base r.dur
      let props := impl.SetSampleProperties e1.self []
      let sample : MediaStreamSample :=
        { Buffer := r.buffer, Timestamp := pts, Duration := dur
          Discontinuous := e1.self.m_isDiscontinuous
          ExtendedProperties := props.2 }
      (some sample, { e1 with self := { e1.self with m_isDiscontinuous := false } })
    else if r.hr = S_FALSE then
      (none, { e1 with self := e1.self.DisableStream })
    else
      (none, { e1 with self := e1.self.DisableStream })
  else (none, e)

end MediaSampleProvider

/-! ## The session object and `Seek` -/

structure FFmpegInteropMSS where
  avFormatCtx : AVFormatContext
  audioSampleProvider : Option MediaSampleProvider
  videoSampleProvider : Option MediaSampleProvider
  audioStreamIndex : Int
  videoStreamIndex : Int
  isFirstSeek : Bool
  mediaDuration : LONGLONG
deriving DecidableEq, Repr

/-- Type of the library call `av_seek_frame(ctx, stream_index, timestamp, flags)`:
its return code and the demuxer context it leaves. -/
abbrev SeekFrame := AVFormatContext → Int → LONGLONG → Int → Int × AVFormatContext

namespace FFmpegInteropMSS

/-- The reference stream chosen by `Seek`: video if present, else audio, else -1. -/
def seekStreamIndex (this : FFmpegInteropMSS) : Int :=
  if this.videoStreamIndex ≥ 0 then this.videoStreamIndex
  else if this.audioStreamIndex ≥ 0 then this.audioStreamIndex
  else -1

/-- The flush `Seek` applies to a provider: `Flush()` followed by
`avcodec_flush_buffers` on the codec context the provider decodes with. -/
def seekFlush (p : MediaSampleProvider) : MediaSampleProvider :=
  let p := p.Flush
  { p with m_pAvCodecCtx := avcodec_flush_buffers p.m_pAvCodecCtx }

/-- The timestamp `Seek` asks the demuxer for: the position compensated for
the file start time and converted to the time-base of the reference stream. -/
def seekTarget {D : Type} (F : DoubleOps D) (this : FFmpegInteropMSS)
    (position : LONGLONG) : LONGLONG :=
  let correctedPosition := add64 position (mul64 this.avFormatCtx.start_time 10)
  F.toLONGLONG (F.div (F.ofInt correctedPosition)
    (F.mul (av_q2d F (this.avFormatCtx.stream this.seekStreamIndex).time_base)
      (F.ofInt 10000000)))

/-- Method `Seek` (`FFmpegInteropMSS.cpp` lines 654-695); `position` is the
requested `TimeSpan.Duration`. -/
def Seek {D : Type} (F : DoubleOps D) (av_seek_frame : SeekFrame)
    (this : FFmpegInteropMSS) (position : LONGLONG) : HRESULT × FFmpegInteropMSS :=
  let streamIndex := this.seekStreamIndex
  if streamIndex ≥ 0 then
    let r := av_seek_frame this.avFormatCtx streamIndex (this.seekTarget F position)
      AVSEEK_FLAG_BACKWARD
    if r.1 < 0 then
      (E_FAIL, { this with avFormatCtx := r.2 })
    else
      (S_OK, { this with
        avFormatCtx := r.2
        audioSampleProvider := this.audioSampleProvider.map seekFlush
        videoSampleProvider := this.videoSampleProvider.map seekFlush })
  else
    (E_FAIL, this)

end FFmpegInteropMSS

/-! ## Call sequences on one provider -/

/-- The calls a provider receives from the session and from the reader. -/
inductive Call where
  | QueuePacket (packet : AVPacket)
  | EnableStream
  | DisableStream
  | Flush
  | GetNextSample
deriving DecidableEq, Repr

/-- Calls that neither flush nor pull a sample. -/
def Call.isQuiet : Call → Bool
  | .QueuePacket _ => true
  | .EnableStream => true
  | _ => false

/-- Calls that deliver a packet or pull a sample. -/
def Call.isDeliveryOrPull : Call → Bool
  | .QueuePacket _ => true
  | .GetNextSample => true
  | _ => false

/-- Effect of one call: the sample it returns (if any) and the objects after it. -/
def Call.apply {D : Type} (F : DoubleOps D) (impl : SampleProviderImpl) :
    Call → Env → Option MediaStreamSample × Env
  | .QueuePacket packet, e => (none, { e with self := e.self.QueuePacket packet })
  | .EnableStream, e => (none, { e with self := e.self.EnableStream })
  | .DisableStream, e => (none, { e with self := e.self.DisableStream })
  | .Flush, e => (none, { e with self := e.self.Flush })
  | .GetNextSample, e => MediaSampleProvider.GetNextSample F impl e

/-- Effect of a sequence of calls: what each returned, in order, and the
objects after the last one. -/
def runCalls {D : Type} (F : DoubleOps D) (impl : SampleProviderImpl) :
    List Call → Env → List (Option MediaStreamSample) × Env
  | [], e => ([], e)
  | c :: cs, e =>
    let r := c.apply F impl e
    let rs := runCalls F impl cs r.2
    (r.1 :: rs.1, rs.2)

/-- Successive `PopPacket` calls: what each returned, in order, and the
provider after the last one. -/
def PopPackets : Nat → MediaSampleProvider → List (Option AVPacket) × MediaSampleProvider
  | 0, s => ([], s)
  | n + 1, s =>
    let r := s.PopPacket
    let rs := PopPackets n r.2
    (r.1 :: rs.1, rs.2)

/-- Successive `GetNextPacket` calls: the result of each, in order (the list
stops short if a call does not return). -/
def GetNextPackets : Nat → Env → List PacketResult
  | 0, _ => []
  | n + 1, e =>
    match MediaSampleProvider.GetNextPacket e 0 0 with
    | some r => r :: GetNextPackets n r.env
    | none => []

/-- A decode step that hands each packet through unchanged: it pulls one packet
with `GetNextPacket` and reports its timestamp and duration. Used to run the
model on concrete inputs. -/
def passThrough : SampleProviderImpl where
  CreateNextSampleBuffer e :=
    match MediaSampleProvider.GetNextPacket e 0 0 with
    | some r =>
      { hr := r.hr, buffer := (r.avPacket.map AVPacket.data).getD 0
        pts := r.packetPts, dur := r.packetDuration, env := r.env }
    | none => { hr := E_FAIL, buffer := 0, pts := 0, dur := 0, env := e }
  SetSampleProperties _ props := (S_OK, props)

/-- A decode step that fails on every call and changes nothing. -/
def alwaysFails : SampleProviderImpl where
  CreateNextSampleBuffer e := { hr := E_FAIL, buffer := 0, pts := 0, dur := 0, env := e }
  SetSampleProperties _ props := (S_OK, props)

/-- A decode step that reports the end of the stream on every call and changes
nothing. -/
def alwaysEof : SampleProviderImpl where
  CreateNextSampleBuffer e := { hr := S_FALSE, buffer := 0, pts := 0, dur := 0, env := e }
  SetSampleProperties _ props := (S_OK, props)

/-! ## Start requests -/

def AVERROR_STREAM_NOT_FOUND : Int := -1381258232

/-- Constructor of the session (`FFmpegInteropMSS.cpp` lines 40-52): both
stream indices start as "not found" and `isFirstSeek` as true; `members` holds
the other members. -/
def FFmpegInteropMSS.ctor (members : FFmpegInteropMSS) : FFmpegInteropMSS :=
  { members with
    audioStreamIndex := AVERROR_STREAM_NOT_FOUND
    videoStreamIndex := AVERROR_STREAM_NOT_FOUND
    isFirstSeek := true }

/-- Outcome of `OnStarting`: the session after the call and the argument of
`request->SetActualStartPosition`, `none` when that was not called. -/
structure StartingResult where
  this : FFmpegInteropMSS
  actualStartPosition : Option LONGLONG
deriving DecidableEq, Repr

/-- Handler `OnStarting` (lines 616-631). `StartPosition` is the requested
position, `none` when the request carries none. -/
def FFmpegInteropMSS.OnStarting {D : Type} (F : DoubleOps D) (av_seek_frame : SeekFrame)
    (this : FFmpegInteropMSS) (StartPosition : Option LONGLONG) : StartingResult :=
  match StartPosition with
  | some position =>
    if position ≤ this.mediaDuration ∧ (¬ this.isFirstSeek = true ∨ position > 0) then
      let r := this.Seek F av_seek_frame position
      { this := { r.2 with isFirstSeek := false }
        actualStartPosition := if r.1 ≥ 0 then some position else none }
    else
      { this := { this with isFirstSeek := false }, actualStartPosition := none }
  | none =>
    { this := { this with isFirstSeek := false }, actualStartPosition := none }

/-! ## Pixel format selection -/

/-- What `get_format` takes from FFmpeg's headers and tables: the values of two
pixel-format constants and the hardware-acceleration flag of each format
(`is_hwaccel_pix_fmt`). The end of a format list is marked by -1. -/
structure PixFmtTable where
  AV_PIX_FMT_NV12 : Int
  AV_PIX_FMT_YUVA420P : Int
  is_hwaccel_pix_fmt : Int → Bool

/-- The loop of `get_format` (lines 259-272): `fmt` is the array from the
current index on, `result` the selection so far. -/
def get_format.loop (P : PixFmtTable) : List Int → Int → Int
  | [], result => result
  | format :: fmt, result =>
    let result :=
      if format ≠ -1 ∧ result = -1 ∧ ¬ P.is_hwaccel_pix_fmt format = true then format
      else if format = P.AV_PIX_FMT_NV12 ∧ result ≠ P.AV_PIX_FMT_YUVA420P then format
      else result
    if format ≠ -1 then get_format.loop P fmt result else result

/-- Callback `get_format` (lines 254-274). -/
def get_format (P : PixFmtTable) (fmt : List Int) : Int :=
  get_format.loop P fmt (-1)

/-- A format table for running the model: NV12 is 23, YUVA420P is 33, and the
formats 44 and 53 are hardware accelerated. -/
def demoPixFmt : PixFmtTable where
  AV_PIX_FMT_NV12 := 23
  AV_PIX_FMT_YUVA420P := 33
  is_hwaccel_pix_fmt f := f == 44 || f == 53

/-! ## The uncompressed video provider -/

/-- Values of FFmpeg's `AVChromaLocation`, of `AV_PIX_FMT_YUVJ420P`, and of the
platform's `MFVideoChromaSubsampling`, `MFNominalRange` and
`MFVideoInterlaceMode` enumerations, as their headers define them. -/
def AVCHROMA_LOC_LEFT : Int := 1
def AVCHROMA_LOC_CENTER : Int := 2
def AVCHROMA_LOC_TOPLEFT : Int := 3
def MFVideoChromaSubsampling_Unknown : Int := 0
def MFVideoChromaSubsampling_MPEG2 : Int := 5
def MFVideoChromaSubsampling_MPEG1 : Int := 1
def MFVideoChromaSubsampling_DV_PAL : Int := 6
def MFVideoChromaSubsampling_Cosited : Int := 7
/-- Method `Insert` of a property set: the value stored under `key` is
replaced, or added when there was none. -/
def PropertySet.Insert {V : Type} (props : List (String × V)) (key : String) (value : V) :
    List (String × V) :=
  props.filter (fun entry => entry.1 != key) ++ [(key, value)]

/-- The members of the decoder context that describe the picture. `width` and
`height` are the display dimensions; `coded_width` and `coded_height` are the
dimensions of the decoded picture, which no function of the provider reads. -/
structure VideoCodecContext where
  width : Int
  height : Int
  coded_width : Int
  coded_height : Int
  sample_aspect_ratio : AVRational
  framerate : AVRational
  bit_rate : Int
deriving DecidableEq, Repr

/-- The members of the stream the video provider reads: the `rotate` metadata
tag (its integer value, `none` when absent) and the average frame rate. -/
structure VideoStreamInfo where
  rotate : Option Int
  avg_frame_rate : AVRational
deriving DecidableEq, Repr

structure UncompressedVideoSampleProvider where
  m_pAvCodecCtx : VideoCodecContext
  m_pAvStream : VideoStreamInfo
  m_OutputPixelFormat : Int
  OutputMediaSubtype : String
  DecoderWidth : Int
  DecoderHeight : Int
  m_interlaced_frame : Bool
  m_top_field_first : Bool
  m_chroma_location : Int
deriving DecidableEq, Repr

namespace UncompressedVideoSampleProvider

/-- Method `SetSampleProperties` (lines 205-255), on the extended properties of
the sample. -/
def SetSampleProperties (this : UncompressedVideoSampleProvider)
    (ExtendedProperties : MediaStreamSamplePropertySet) :
    HRESULT × MediaStreamSamplePropertySet :=
  let ExtendedProperties :=
    PropertySet.Insert ExtendedProperties "MFSampleExtension_Interlaced"
      (if this.m_interlaced_frame then 1 else 0)
  let ExtendedProperties :=
    if this.m_interlaced_frame then
      let ExtendedProperties :=
        PropertySet.Insert ExtendedProperties "MFSampleExtension_BottomFieldFirst"
          (if this.m_top_field_first then 0 else 1)
      PropertySet.Insert ExtendedProperties "MFSampleExtension_RepeatFirstField" 0
    else ExtendedProperties
  let siting : Bool × Int :=
    if this.m_chroma_location = AVCHROMA_LOC_LEFT then
      (true, MFVideoChromaSubsampling_MPEG2)
    else if this.m_chroma_location = AVCHROMA_LOC_CENTER then
      (true, MFVideoChromaSubsampling_MPEG1)
    else if this.m_chroma_location = AVCHROMA_LOC_TOPLEFT then
      (true, if this.m_interlaced_frame then MFVideoChromaSubsampling_DV_PAL
        else MFVideoChromaSubsampling_Cosited)
    else (false, MFVideoChromaSubsampling_Unknown)
  let NeedToSetMFMTVideoChromaSiting := siting.1
  let MFMTVideoChromaSitingValue := siting.2
  let ExtendedProperties :=
    if NeedToSetMFMTVideoChromaSiting then
      PropertySet.Insert ExtendedProperties "MF_MT_VIDEO_CHROMA_SITING"
        MFMTVideoChromaSitingValue
    else ExtendedProperties
  (S_OK, ExtendedProperties)

end UncompressedVideoSampleProvider

/-- Lookup of the value stored under a key of a property set. -/
def PropertySet.Lookup {V : Type} (props : List (String × V)) (key : String) : Option V :=
  (props.find? (fun entry => entry.1 == key)).map Prod.snd

/-! ## The decode step -/

/-- A decoded frame, as far as the providers read it. -/
structure AVFrame where
  best_effort_timestamp : LONGLONG
  interlaced_frame : Int
  top_field_first : Int
  chroma_location : Int
  data : Nat
deriving DecidableEq, Repr

/-- What the codec answers to one packet: a frame, no frame (the provider
goes on to the next packet), or a decode error that ends the pull. -/
inductive DecodeOutcome where
  | frame (avFrame : AVFrame)
  | noFrame
  | error
deriving DecidableEq, Repr

/-- The external codec, "feed packet, drain zero-or-one frames": its answer to
a packet and the decoder state it leaves. -/
abbrev Decoder := AVCodecContext → AVPacket → DecodeOutcome × AVCodecContext

/-- Outcome of `CreateBufferFromFrame`: the result code, the buffer, and the
reference arguments `framePts` and `frameDuration`. -/
structure FrameBuffer where
  hr : HRESULT
  buffer : IBuffer
  framePts : LONGLONG
  frameDuration : LONGLONG
deriving DecidableEq, Repr

/-- The virtual member `CreateBufferFromFrame` as a function of the frame and
of the timestamp and duration it is handed. -/
abbrev FrameConversion := AVFrame → LONGLONG → LONGLONG → FrameBuffer

/-- The virtual member `SetSampleProperties`: the result code and the extended
properties of the sample after the call. -/
abbrev SampleProperties :=
  MediaSampleProvider → MediaStreamSamplePropertySet → HRESULT × MediaStreamSamplePropertySet

/-- The packets and read errors the provider has still to get through: the
length of its queue plus what the demuxer has left. -/
def Env.pending (e : Env) : Nat :=
  e.self.m_packetQueue.length + e.avFormatCtx.packets.length

namespace UncompressedSampleProvider

/-- Modelled from the spec: the loop of `CreateNextSampleBuffer` of the
uncompressed providers, whose file is not among the sources (section 4.2).
The provider requests the next packet with `GetNextPacket`; at the end of the
stream it returns what `GetNextPacket` returned; it feeds the packet to the
codec, and when the packet yields no frame it retries with the next packet; a
decode error is a failure; a frame is handed to `CreateBufferFromFrame`
together with the timestamp and duration of the packet, and the result code,
buffer, timestamp and duration that leaves are returned. The first argument
bounds the number of packets tried; `none` means the bound was reached. -/
def CreateNextSampleBuffer.loop (decoder : Decoder) (convert : FrameConversion) :
    Nat → Env → Option DecodeResult
  | 0, _ => none
  | fuel + 1, e =>
    match MediaSampleProvider.GetNextPacket e 0 0 with
    | none => none
    | some r =>
      if r.hr = S_OK then
        match r.avPacket with
        | some avPacket =>
          let d := decoder r.env.self.m_pAvCodecCtx avPacket
          let e1 : Env := { r.env with self := { r.env.self with m_pAvCodecCtx := d.2 } }
          match d.1 with
          | DecodeOutcome.frame avFrame =>
            let b := convert avFrame r.packetPts r.packetDuration
            some { hr := b.hr, buffer := b.buffer, pts := b.framePts, dur := b.frameDuration
                   env := e1 }
          | DecodeOutcome.noFrame => CreateNextSampleBuffer.loop decoder convert fuel e1
          | DecodeOutcome.error =>
            some { hr := E_FAIL, buffer := 0, pts := r.packetPts, dur := r.packetDuration
                   env := e1 }
        | none =>
          some { hr := E_FAIL, buffer := 0, pts := r.packetPts, dur := r.packetDuration
                 env := r.env }
      else
        some { hr := r.hr, buffer := 0, pts := r.packetPts, dur := r.packetDuration
               env := r.env }

/-- Modelled from the spec: `CreateNextSampleBuffer` of the uncompressed
providers. The loop may try one packet more than the provider has pending,
which it never needs (`CreateNextSampleBuffer_loop_total`). -/
def CreateNextSampleBuffer (decoder : Decoder) (convert : FrameConversion) (e : Env) :
    DecodeResult :=
  (CreateNextSampleBuffer.loop decoder convert (e.pending + 1) e).getD
    { hr := E_FAIL, buffer := 0, pts := 0, dur := 0, env := e }

/-- Modelled from the spec: the provider whose decode step is
`CreateNextSampleBuffer` over the given codec and conversion, with the given
`SetSampleProperties`. -/
def impl (decoder : Decoder) (convert : FrameConversion) (properties : SampleProperties) :
    SampleProviderImpl where
  CreateNextSampleBuffer := CreateNextSampleBuffer decoder convert
  SetSampleProperties := properties

end UncompressedSampleProvider

def E_OUTOFMEMORY : HRESULT := -2147024882
def E_INVALIDARG : HRESULT := -2147024809
def AV_DISPOSITION_ATTACHED_PIC : Int := 1024

/-- The platform object `MediaStreamSource`, as far as this code touches it:
the stream descriptors it holds (`true` for the video descriptor, `false` for
the audio descriptor), and what `InitFFmpegContext` sets on it. -/
structure MediaStreamSource where
  descriptors : List Bool
  BufferTime : LONGLONG
  Duration : LONGLONG
  CanSeek : Bool
  handlersRegistered : Bool
deriving DecidableEq, Repr

/-- What the library and the platform answer while one stream is set up: the
result of `av_find_best_stream`, whether it found a decoder, whether
`avcodec_alloc_context3` returned a context, the results of
`avcodec_parameters_to_context` and `avcodec_open2`, the result of
`Initialize()` on the new provider, whether its descriptor has the expected
type, and the result of `ConvertCodecName`. -/
structure StreamProbe where
  av_find_best_stream : Int
  codecFound : Bool
  contextAllocated : Bool
  avcodec_parameters_to_context : Int
  avcodec_open2 : Int
  Initialize : HRESULT
  descriptorOfType : Bool
  ConvertCodecName : HRESULT
deriving DecidableEq, Repr

/-- What the library and the platform answer while a source is opened. -/
structure OpenAnswers where
  sourceGiven : Bool
  CreateStreamOverRandomAccessStream : HRESULT
  bufferAllocated : Bool
  ioContextAllocated : Bool
  formatContextAllocated : Bool
  ParseOptions : HRESULT
  avformat_open_input : Int
  avformat_find_stream_info : Int
  readerCreated : Bool
  IsFrameGrabber : Bool
  audio : StreamProbe
  video : StreamProbe
  videoDisposition : Int
  duration : LONGLONG
  mssCreated : Bool
deriving DecidableEq, Repr

/-- The members of the session that opening writes. The descriptors and the
providers are recorded by whether they are set. -/
structure OpenMembers where
  mss : Option MediaStreamSource
  audioStreamIndex : Int
  videoStreamIndex : Int
  audioStreamDescriptor : Bool
  videoStreamDescriptor : Bool
  audioSampleProvider : Bool
  videoSampleProvider : Bool
  mediaDuration : LONGLONG
deriving DecidableEq, Repr

/-- The members as the constructor leaves them. -/
def OpenMembers.initial : OpenMembers where
  mss := none
  audioStreamIndex := AVERROR_STREAM_NOT_FOUND
  videoStreamIndex := AVERROR_STREAM_NOT_FOUND
  audioStreamDescriptor := false
  videoStreamDescriptor := false
  audioSampleProvider := false
  videoSampleProvider := false
  mediaDuration := 0

namespace FFmpegInteropMSS

/-- Methods `CreateAudioStreamDescriptor` and `CreateVideoStreamDescriptor`
(lines 537-581), which differ only in the members they assign: the result
code, whether the descriptor is set, whether the provider is kept. -/
def CreateStreamDescriptorOf (probe : StreamProbe) : HRESULT × Bool × Bool :=
  let hr := probe.Initialize
  let r : HRESULT × Bool :=
    if hr ≥ 0 then
      if probe.descriptorOfType then (hr, true) else (E_FAIL, false)
    else (hr, false)
  if r.1 < 0 then (r.1, r.2, false) else (r.1, r.2, true)

/-- The part of `InitFFmpegContext` that sets up a stream once
`av_find_best_stream` has found it with a decoder (lines 304-369 for audio,
390-445 for video). -/
def openStream (probe : StreamProbe) : HRESULT × Bool × Bool :=
  if ¬ probe.contextAllocated = true then (E_OUTOFMEMORY, false, false)
  else if probe.avcodec_parameters_to_context < 0 then (E_FAIL, false, false)
  else if probe.avcodec_open2 < 0 then (E_FAIL, false, false)
  else
    let r := CreateStreamDescriptorOf probe
    if r.1 ≥ 0 then (probe.ConvertCodecName, r.2.1, r.2.2) else r

/-- Method `InitFFmpegContext` (lines 276-511). -/
def InitFFmpegContext {D : Type} (F : DoubleOps D) (a : OpenAnswers) (this : OpenMembers) :
    HRESULT × OpenMembers :=
  let hr : HRESULT := if a.avformat_find_stream_info < 0 then E_FAIL else S_OK
  let hr : HRESULT := if hr ≥ 0 then (if a.readerCreated then hr else E_OUTOFMEMORY) else hr
  -- the audio stream and its decoder
  let st : HRESULT × OpenMembers :=
    if hr ≥ 0 ∧ ¬ a.IsFrameGrabber = true then
      let this := { this with audioStreamIndex := a.audio.av_find_best_stream }
      if this.audioStreamIndex ≠ AVERROR_STREAM_NOT_FOUND ∧ a.audio.codecFound = true then
        let r := openStream a.audio
        (r.1, { this with audioStreamDescriptor := r.2.1, audioSampleProvider := r.2.2 })
      else (hr, this)
    else (hr, this)
  -- the video stream and its decoder
  let st : HRESULT × OpenMembers :=
    if st.1 ≥ 0 then
      let this := { st.2 with videoStreamIndex := a.video.av_find_best_stream }
      if this.videoStreamIndex ≠ AVERROR_STREAM_NOT_FOUND ∧ a.video.codecFound = true then
        if a.videoDisposition = AV_DISPOSITION_ATTACHED_PIC then
          (st.1, { this with videoStreamIndex := AVERROR_STREAM_NOT_FOUND })
        else
          let r := openStream a.video
          (r.1, { this with videoStreamDescriptor := r.2.1, videoSampleProvider := r.2.2 })
      else (st.1, this)
    else st
  if st.1 ≥ 0 then
    let mediaDuration :=
      F.toLONGLONG (F.div (F.ofInt (mul64 a.duration 10000000)) (F.ofInt 1000000))
    let this := { st.2 with mediaDuration := mediaDuration }
    let created (descriptors : List Bool) : Option MediaStreamSource :=
      if a.mssCreated then
        some { descriptors := descriptors, BufferTime := 0, Duration := 0, CanSeek := false,
               handlersRegistered := false }
      else none
    let added (descriptors : List Bool) : Option MediaStreamSource :=
      match this.mss with
      | some m => some { m with descriptors := m.descriptors ++ descriptors }
      | none => created descriptors
    let mss : Option MediaStreamSource :=
      if this.audioStreamDescriptor then
        if this.videoStreamDescriptor then added [true, false] else added [false]
      else if this.videoStreamDescriptor then added [true]
      else this.mss
    match mss with
    | some m =>
      let m := { m with BufferTime := 0 }
      let m : MediaStreamSource :=
        if (this.mediaDuration : Int) > 0 then
          { m with Duration := this.mediaDuration, CanSeek := true }
        else m
      (st.1, { this with mss := some { m with handlersRegistered := true } })
    | none => (E_OUTOFMEMORY, { this with mss := none })
  else st

/-- Method `CreateMediaStreamSource(String^ uri)` (lines 115-167). -/
def CreateMediaStreamSourceFromUri {D : Type} (F : DoubleOps D) (a : OpenAnswers)
    (this : OpenMembers) : HRESULT × OpenMembers :=
  if ¬ a.sourceGiven = true then (E_INVALIDARG, this)
  else if ¬ a.formatContextAllocated = true then (E_OUTOFMEMORY, this)
  else if a.ParseOptions < 0 then (a.ParseOptions, this)
  else if a.avformat_open_input < 0 then (E_FAIL, this)
  else InitFFmpegContext F a { this with mss := none }

/-- Method `CreateMediaStreamSource(IRandomAccessStream^ stream,
MediaStreamSource^ mss)` (lines 169-246). -/
def CreateMediaStreamSourceFromStream {D : Type} (F : DoubleOps D) (a : OpenAnswers)
    (this : OpenMembers) (mss : Option MediaStreamSource) : HRESULT × OpenMembers :=
  if ¬ a.sourceGiven = true then (E_INVALIDARG, this)
  else if a.CreateStreamOverRandomAccessStream < 0 then
    (a.CreateStreamOverRandomAccessStream, this)
  else if ¬ a.bufferAllocated = true then (E_OUTOFMEMORY, this)
  else if ¬ a.ioContextAllocated = true then (E_OUTOFMEMORY, this)
  else if ¬ a.formatContextAllocated = true then (E_OUTOFMEMORY, this)
  else if a.ParseOptions < 0 then (a.ParseOptions, this)
  else if a.avformat_open_input < 0 then (E_FAIL, this)
  else InitFFmpegContext F a { this with mss := mss }

/-- Method `CreateFromUri` (lines 99-108): the session, or the result code the
exception carries. -/
def CreateFromUri {D : Type} (F : DoubleOps D) (a : OpenAnswers) : Except HRESULT OpenMembers :=
  let r := CreateMediaStreamSourceFromUri F a OpenMembers.initial
  if ¬ r.1 ≥ 0 then Except.error r.1 else Except.ok r.2

/-- Method `CreateFromStream` (lines 88-97): the session, or the result code
the exception carries. -/
def CreateFromStream {D : Type} (F : DoubleOps D) (a : OpenAnswers)
    (mss : Option MediaStreamSource) : Except HRESULT OpenMembers :=
  let r := CreateMediaStreamSourceFromStream F a OpenMembers.initial mss
  if ¬ r.1 ≥ 0 then Except.error r.1 else Except.ok r.2

end FFmpegInteropMSS

/-- Answers for a source that opens without error and has neither an audio nor
a video stream. -/
def noStreamAnswers : OpenAnswers where
  sourceGiven := true
  CreateStreamOverRandomAccessStream := S_OK
  bufferAllocated := true
  ioContextAllocated := true
  formatContextAllocated := true
  ParseOptions := S_OK
  avformat_open_input := 0
  avformat_find_stream_info := 0
  readerCreated := true
  IsFrameGrabber := false
  audio := ⟨AVERROR_STREAM_NOT_FOUND, false, true, 0, 0, S_OK, true, S_OK⟩
  video := ⟨AVERROR_STREAM_NOT_FOUND, false, true, 0, 0, S_OK, true, S_OK⟩
  videoDisposition := 0
  duration := 3000000
  mssCreated := true

/-- Answers for a music file whose only video stream is its cover art and whose
audio stream has no decoder. -/
def coverArtAnswers : OpenAnswers :=
  { noStreamAnswers with
    audio := ⟨0, false, true, 0, 0, S_OK, true, S_OK⟩
    video := ⟨1, true, true, 0, 0, S_OK, true, S_OK⟩
    videoDisposition := AV_DISPOSITION_ATTACHED_PIC }

/-- A media stream source as a caller may supply it. -/
def suppliedMss : MediaStreamSource where
  descriptors := []
  BufferTime := 0
  Duration := 0
  CanSeek := false
  handlersRegistered := false

/-- A video provider for a 1920x1080 picture (coded size 1920x1088), before
`CreateStreamDescriptor` has run. -/
def demoVideoProvider : UncompressedVideoSampleProvider where
  m_pAvCodecCtx :=
    { width := 1920, height := 1080, coded_width := 1920, coded_height := 1088
      sample_aspect_ratio := ⟨1, 1⟩, framerate := ⟨25, 1⟩, bit_rate := 4000000 }
  m_pAvStream := { rotate := none, avg_frame_rate := ⟨25, 1⟩ }
  m_OutputPixelFormat := 0
  OutputMediaSubtype := ""
  DecoderWidth := 0
  DecoderHeight := 0
  m_interlaced_frame := false
  m_top_field_first := false
  m_chroma_location := 0

/-! ## Concrete inputs -/

/-- A provider of stream 0, enabled, start offset 100000 ticks, prediction 1000. -/
def demoProvider : MediaSampleProvider where
  m_packetQueue := []
  m_nextPacketPts := 1000
  m_isEnabled := true
  m_isDiscontinuous := false
  m_startOffset := 100000
  m_streamIndex := 0
  m_pAvCodecCtx := ⟨[]⟩

/-- A container with one stream in a 1/90000 time-base (stream start 900, that
is 10000 microseconds), still to deliver a packet with pts 180000 and one
without pts, both of duration 3000. -/
def demoFormatCtx : AVFormatContext where
  start_time := 10000
  duration := 5000000
  streams := [⟨⟨1, 90000⟩, 900⟩]
  packets := [some ⟨0, 180000, 3000, 7⟩, some ⟨0, AV_NOPTS_VALUE, 3000, 8⟩]

def demoEnv : Env where
  self := demoProvider
  avFormatCtx := demoFormatCtx
  sibling := none

/-- A session over `demoFormatCtx` with a video provider on stream 0 holding
one queued packet and an audio provider on stream 1 holding two. -/
def demoSession : FFmpegInteropMSS where
  avFormatCtx := demoFormatCtx
  audioSampleProvider := some
    { demoProvider with m_streamIndex := 1, m_packetQueue := [⟨1, 10, 1, 1⟩, ⟨1, 11, 1, 2⟩] }
  videoSampleProvider := some { demoProvider with m_packetQueue := [⟨0, 0, 3000, 3⟩] }
  audioStreamIndex := 1
  videoStreamIndex := 0
  isFirstSeek := false
  mediaDuration := 50000000

/-- A container seek that succeeds and leaves nothing to read. -/
def seekSucceeds : SeekFrame := fun ctx _ _ _ => (0, { ctx with packets := [] })

/-- A container seek that is rejected. -/
def seekRejected : SeekFrame := fun ctx _ _ _ => (-1, ctx)

/-! ## Order of timestamps -/

/-- Two states of the objects that agree on the enabled flag, the
discontinuity flag, the start offset and the stream index of the provider and
on the stream table. -/
def Env.SameSetting (a b : Env) : Prop :=
  a.self.m_isEnabled = b.self.m_isEnabled ∧
  a.self.m_isDiscontinuous = b.self.m_isDiscontinuous ∧
  a.self.m_startOffset = b.self.m_startOffset ∧
  a.self.m_streamIndex = b.self.m_streamIndex ∧
  a.avFormatCtx.streams = b.avFormatCtx.streams

/-- Two provider objects that agree on every member except, possibly, the
packet queue. -/
def MediaSampleProvider.SameButQueue (a b : MediaSampleProvider) : Prop :=
  a = { b with m_packetQueue := a.m_packetQueue }

/-! ## Basic facts about the queue operations -/

theorem SameButQueue_refl (a : MediaSampleProvider) : a.SameButQueue a := by
  unfold MediaSampleProvider.SameButQueue; rfl

theorem SameButQueue_trans {a b c : MediaSampleProvider}
    (h1 : a.SameButQueue b) (h2 : b.SameButQueue c) : a.SameButQueue c := by
  unfold MediaSampleProvider.SameButQueue at *
  rw [h2] at h1
  exact h1

theorem SameButQueue_nextPts {a b : MediaSampleProvider} (h : a.SameButQueue b) :
    a.m_nextPacketPts = b.m_nextPacketPts := by
  unfold MediaSampleProvider.SameButQueue at h
  rw [h]

theorem SameButQueue_discontinuous {a b : MediaSampleProvider} (h : a.SameButQueue b) :
    a.m_isDiscontinuous = b.m_isDiscontinuous := by
  unfold MediaSampleProvider.SameButQueue at h
  rw [h]

theorem QueuePacket_sameButQueue (s : MediaSampleProvider) (p : AVPacket) :
    (s.QueuePacket p).SameButQueue s := by
  unfold MediaSampleProvider.QueuePacket MediaSampleProvider.SameButQueue
  split <;> rfl

theorem ReadPacket_sameButQueue (e : Env) :
    (FFmpegReader.ReadPacket e).2.self.SameButQueue e.self := by
  unfold FFmpegReader.ReadPacket
  split
  · exact SameButQueue_refl _
  · exact SameButQueue_refl _
  · dsimp only
    split
    · exact QueuePacket_sameButQueue _ _
    · split
      · split
        · exact SameButQueue_refl _
        · exact SameButQueue_refl _
      · exact SameButQueue_refl _

/-- A read that does not fail consumes one entry of the demuxer input. -/
theorem ReadPacket_consumes (e : Env) (h : ¬ (FFmpegReader.ReadPacket e).1 < 0) :
    (FFmpegReader.ReadPacket e).2.avFormatCtx.packets.length + 1
      = e.avFormatCtx.packets.length := by
  unfold FFmpegReader.ReadPacket at h ⊢
  split
  · rename_i h0
    rw [h0] at h
    simp [AVERROR_EOF] at h
  · rename_i rest h0
    rw [h0] at h
    simp [AVERROR_READ_ERROR] at h
  · rename_i pkt rest h0
    rw [h0]
    dsimp only
    split
    · simp
    · split
      · split <;> simp
      · simp

/-- The reading loop ends within one iteration more than the demuxer has reads
left, and it changes nothing of the provider but its queue. -/
theorem GetNextPacket_loop_total (fuel : Nat) (e : Env)
    (h : e.avFormatCtx.packets.length < fuel) :
    ∃ e1, MediaSampleProvider.GetNextPacket.loop fuel e = some e1
      ∧ e1.self.SameButQueue e.self := by
  induction fuel generalizing e with
  | zero => omega
  | succ n ih =>
    unfold MediaSampleProvider.GetNextPacket.loop
    by_cases hq : e.self.m_packetQueue.isEmpty = true
    · rw [if_pos hq]
      dsimp only
      by_cases hr : (FFmpegReader.ReadPacket e).1 < 0
      · rw [if_pos hr]
        exact ⟨_, rfl, ReadPacket_sameButQueue e⟩
      · rw [if_neg hr]
        have hlen := ReadPacket_consumes e hr
        obtain ⟨e1, h1, h2⟩ := ih (FFmpegReader.ReadPacket e).2 (by omega)
        exact ⟨e1, h1, SameButQueue_trans h2 (ReadPacket_sameButQueue e)⟩
    · rw [if_neg hq]
      exact ⟨e, rfl, SameButQueue_refl _⟩

/-- On a queue that is not empty the reading loop does nothing. -/
theorem GetNextPacket_loop_nonempty (fuel : Nat) (e : Env)
    (h : e.self.m_packetQueue.isEmpty = false) :
    MediaSampleProvider.GetNextPacket.loop (fuel + 1) e = some e := by
  unfold MediaSampleProvider.GetNextPacket.loop
  simp [h]

/-- An integer in the signed 64-bit range is left alone by `wrap64`. -/
theorem wrap64_of_inInt64 (x : Int) (h : InInt64 x) : wrap64 x = x := by
  unfold InInt64 at h
  unfold wrap64
  omega

/-- What `GetNextPacket` does after the reading loop, on a queue with a packet
at its front. -/
theorem GetNextPacket_take_cons (e : Env) (packet : AVPacket) (rest : List AVPacket)
    (a b : LONGLONG) (hq : e.self.m_packetQueue = packet :: rest) :
    let T := if packet.pts ≠ AV_NOPTS_VALUE then packet.pts else e.self.m_nextPacketPts
    MediaSampleProvider.GetNextPacket.take e a b =
      { hr := S_OK, avPacket := some packet, packetPts := T
        packetDuration := packet.duration
        env := { e with self :=
          { e.self with m_packetQueue := rest
                        m_nextPacketPts := add64 T packet.duration } } } := by
  unfold MediaSampleProvider.GetNextPacket.take MediaSampleProvider.PopPacket
  simp only [hq]
  by_cases hp : packet.pts = AV_NOPTS_VALUE <;> simp [hp]

/-- What `GetNextPacket` does after the reading loop, on an empty queue. -/
theorem GetNextPacket_take_nil (e : Env) (a b : LONGLONG) (hq : e.self.m_packetQueue = []) :
    MediaSampleProvider.GetNextPacket.take e a b =
      { hr := S_FALSE, avPacket := none, packetPts := a, packetDuration := b, env := e } := by
  unfold MediaSampleProvider.GetNextPacket.take
  simp [hq]

/-- C1: `GetNextPacket` always returns, with `S_OK` or `S_FALSE`. Whenever it
returns `S_OK` it has popped a packet; with `N` the value of `m_nextPacketPts`
before the call, the timestamp it returns is the pts of the packet when that
is set and `N` when it is `AV_NOPTS_VALUE`, the duration it returns is the
duration of the packet, and afterwards `m_nextPacketPts` is the 64-bit sum of
the two, which is their sum whenever that sum is representable. A queue that
has a packet at its front when the call starts yields that packet. -/
theorem GetNextPacket_timestamp (e : Env) (pts0 dur0 : LONGLONG) :
    ∃ r, MediaSampleProvider.GetNextPacket e pts0 dur0 = some r ∧
      (r.hr = S_OK ∨ (r.hr = S_FALSE ∧ r.avPacket = none)) ∧
      (r.hr = S_OK →
        ∃ packet, r.avPacket = some packet ∧
          r.packetPts =
            (if packet.pts ≠ AV_NOPTS_VALUE then packet.pts else e.self.m_nextPacketPts) ∧
          r.packetDuration = packet.duration ∧
          r.env.self.m_nextPacketPts = add64 r.packetPts r.packetDuration ∧
          (InInt64 (r.packetPts + r.packetDuration) →
            r.env.self.m_nextPacketPts = r.packetPts + r.packetDuration)) ∧
      (∀ front rest, e.self.m_packetQueue = front :: rest →
        r.hr = S_OK ∧ r.avPacket = some front ∧ r.env.self.m_packetQueue = rest) := by
  obtain ⟨e1, hloop, hsame⟩ :=
    GetNextPacket_loop_total (e.avFormatCtx.packets.length + 1) e (by omega)
  refine ⟨MediaSampleProvider.GetNextPacket.take e1 pts0 dur0, ?_, ?_, ?_, ?_⟩
  · unfold MediaSampleProvider.GetNextPacket
    rw [hloop]
  · cases hq : e1.self.m_packetQueue with
    | nil => right; rw [GetNextPacket_take_nil e1 _ _ hq]; exact ⟨rfl, rfl⟩
    | cons p rest => left; rw [GetNextPacket_take_cons e1 p rest _ _ hq]
  · intro hok
    cases hq : e1.self.m_packetQueue with
    | nil =>
      rw [GetNextPacket_take_nil e1 _ _ hq] at hok
      simp [S_OK, S_FALSE] at hok
    | cons p rest =>
      rw [GetNextPacket_take_cons e1 p rest _ _ hq]
      refine ⟨p, rfl, ?_, rfl, rfl, ?_⟩
      · simp only [SameButQueue_nextPts hsame]
      · intro hin
        simp only [add64]
        exact wrap64_of_inInt64 _ hin
  · intro front rest hq
    have hne : e.self.m_packetQueue.isEmpty = false := by rw [hq]; rfl
    have hl := GetNextPacket_loop_nonempty e.avFormatCtx.packets.length e hne
    rw [hl] at hloop
    cases hloop
    rw [GetNextPacket_take_cons e front rest _ _ hq]
    exact ⟨rfl, rfl, rfl⟩

/-- Three successive calls on a queue holding a packet without pts (duration 40)
in front of a packet with pts 500 (duration 20), prediction 1000. -/
theorem GetNextPackets_example :
    (GetNextPackets 3
        { self :=
            { m_packetQueue :=
                [⟨0, AV_NOPTS_VALUE, 40, 1⟩, ⟨0, 500, 20, 2⟩]
              m_nextPacketPts := 1000, m_isEnabled := true, m_isDiscontinuous := false
              m_startOffset := 0, m_streamIndex := 0, m_pAvCodecCtx := ⟨[]⟩ }
          avFormatCtx := ⟨0, 0, [⟨⟨1, 1000⟩, 0⟩], []⟩
          sibling := none }).map
        (fun r => (r.hr, r.packetPts, r.packetDuration, r.env.self.m_nextPacketPts))
      = [(S_OK, 1000, 40, 1040), (S_OK, 500, 20, 520), (S_FALSE, 0, 0, 520)] := by
  decide

/-- C1 at a concrete input: the packet at the front has no pts and duration 40,
the prediction is 1000; the call returns timestamp 1000 and duration 40 and
moves the prediction to 1040. -/
theorem GetNextPacket_timestamp_witness :
    ∃ r, MediaSampleProvider.GetNextPacket
        { demoEnv with self :=
            { demoProvider with m_packetQueue := [⟨0, AV_NOPTS_VALUE, 40, 1⟩, ⟨0, 500, 20, 2⟩] } }
        0 0 = some r ∧
      r.hr = S_OK ∧ r.packetPts = 1000 ∧ r.packetDuration = 40 ∧
      r.env.self.m_nextPacketPts = 1040 := by
  obtain ⟨r, hr, _, hpop, hfront⟩ := GetNextPacket_timestamp
    { demoEnv with self :=
        { demoProvider with m_packetQueue := [⟨0, AV_NOPTS_VALUE, 40, 1⟩, ⟨0, 500, 20, 2⟩] } }
    0 0
  obtain ⟨hok, hpkt, _⟩ := hfront ⟨0, AV_NOPTS_VALUE, 40, 1⟩ [⟨0, 500, 20, 2⟩] rfl
  obtain ⟨packet, hsome, hT, hD, _, hN⟩ := hpop hok
  rw [hpkt] at hsome
  cases hsome
  have hT' : r.packetPts = 1000 := by rw [hT]; decide
  have hD' : r.packetDuration = 40 := hD
  refine ⟨r, hr, hok, hT', hD', ?_⟩
  rw [hN (by rw [hT', hD']; decide), hT', hD']
  rfl

/-! ## Conversion to ticks and the start offset -/

/-- C2: when the provider is enabled and the decode step returns `S_OK` with
timestamp `pts` and duration `dur`, `GetNextSample` returns a sample whose
timestamp is `LONGLONG(time_base * 10000000 * pts)` minus the start offset of
the provider (a 64-bit subtraction, the exact difference when that is
representable) and whose duration is `LONGLONG(time_base * 10000000 * dur)`,
with no offset subtracted. -/
theorem GetNextSample_timestamp {D : Type} (F : DoubleOps D) (impl : SampleProviderImpl)
    (e : Env) (hen : e.self.m_isEnabled = true)
    (hok : (impl.CreateNextSampleBuffer e).hr = S_OK) :
    let r := impl.CreateNextSampleBuffer e
    let tb := (r.env.avFormatCtx.stream r.env.self.m_streamIndex).time_base
    let ticks := fun x : LONGLONG =>
      F.toLONGLONG (F.mul (F.mul (F.div (F.ofInt tb.num) (F.ofInt tb.den)) (F.ofInt 10000000))
        (F.ofInt x))
    ∃ sample, (MediaSampleProvider.GetNextSample F impl e).1 = some sample ∧
      sample.Timestamp = sub64 (ticks r.pts) r.env.self.m_startOffset ∧
      (InInt64 (ticks r.pts - r.env.self.m_startOffset) →
        sample.Timestamp = ticks r.pts - r.env.self.m_startOffset) ∧
      sample.Duration = ticks r.dur := by
  intro r tb ticks
  unfold MediaSampleProvider.GetNextSample
  rw [if_pos hen]
  simp only [hok, if_true]
  refine ⟨_, rfl, rfl, ?_, rfl⟩
  intro hin
  exact wrap64_of_inInt64 _ hin

/-- C2 at a concrete input: a packet with pts 180000 and duration 3000 in a
1/90000 time-base, start offset 100000, in exact arithmetic. -/
theorem GetNextSample_timestamp_witness :
    demoEnv.self.m_isEnabled = true ∧
    (passThrough.CreateNextSampleBuffer demoEnv).hr = S_OK ∧
    ∃ sample, (MediaSampleProvider.GetNextSample exactDouble passThrough demoEnv).1
        = some sample ∧
      sample.Timestamp = 19900000 ∧ sample.Duration = 333333 := by
  refine ⟨by decide, by decide, ?_⟩
  obtain ⟨sample, h1, h2, _, h4⟩ :=
    GetNextSample_timestamp exactDouble passThrough demoEnv (by decide) (by decide)
  refine ⟨sample, h1, ?_, ?_⟩
  · rw [h2]; decide
  · rw [h4]; decide

/-- C3: for a container start time `S` that is not zero, the constructor sets
the start offset to `LONGLONG(time_base * start_time * 10000000)` of the
stream when `S` equals `LONGLONG(time_base * start_time * 1000000)`, and to
`S * 10` (a 64-bit product, the exact product when representable) when the
two differ. -/
theorem ctor_startOffset {D : Type} (F : DoubleOps D) (avFormatCtx : AVFormatContext)
    (streamIndex : Int) (fields : MediaSampleProvider)
    (hS : avFormatCtx.start_time ≠ 0) :
    let st := avFormatCtx.stream streamIndex
    let secs := F.mul (F.div (F.ofInt st.time_base.num) (F.ofInt st.time_base.den))
      (F.ofInt st.start_time)
    let streamStartTime := F.toLONGLONG (F.mul secs (F.ofInt 1000000))
    let this := MediaSampleProvider.ctor F avFormatCtx streamIndex fields
    (avFormatCtx.start_time = streamStartTime →
      this.m_startOffset = F.toLONGLONG (F.mul secs (F.ofInt 10000000))) ∧
    (avFormatCtx.start_time ≠ streamStartTime →
      this.m_startOffset = mul64 avFormatCtx.start_time 10 ∧
      (InInt64 (avFormatCtx.start_time * 10) →
        this.m_startOffset = avFormatCtx.start_time * 10)) := by
  intro st secs streamStartTime this
  constructor
  · intro heq
    show (MediaSampleProvider.ctor F avFormatCtx streamIndex fields).m_startOffset = _
    unfold MediaSampleProvider.ctor
    simp only [av_q2d]
    rw [if_pos hS, if_pos heq]
  · intro hne
    have h : this.m_startOffset = mul64 avFormatCtx.start_time 10 := by
      show (MediaSampleProvider.ctor F avFormatCtx streamIndex fields).m_startOffset = _
      unfold MediaSampleProvider.ctor
      simp only [av_q2d]
      rw [if_pos hS, if_neg hne]
    refine ⟨h, ?_⟩
    intro hin
    rw [h]
    exact wrap64_of_inInt64 _ hin

/-- C3 at concrete inputs, in exact arithmetic: the container start time 10000
agrees with a stream start of 900 in a 1/90000 time-base and gives the offset
100000 by the precise path; the container start time 10001 does not agree and
gives 100010. -/
theorem ctor_startOffset_witness :
    demoFormatCtx.start_time ≠ 0 ∧
    (MediaSampleProvider.ctor exactDouble demoFormatCtx 0
      { demoProvider with m_startOffset := 0 }).m_startOffset = 100000 ∧
    (MediaSampleProvider.ctor exactDouble { demoFormatCtx with start_time := 10001 } 0
      { demoProvider with m_startOffset := 0 }).m_startOffset = 100010 := by
  refine ⟨by decide, ?_, ?_⟩
  · have h := (ctor_startOffset exactDouble demoFormatCtx 0
      { demoProvider with m_startOffset := 0 } (by decide)).1 (by decide)
    rw [h]; decide
  · have h := ((ctor_startOffset exactDouble { demoFormatCtx with start_time := 10001 } 0
      { demoProvider with m_startOffset := 0 } (by decide)).2 (by decide)).2 (by decide)
    rw [h]; decide

/-! ## Flush, DisableStream and the disabled provider -/

/-- The loop of `Flush` empties the queue within as many iterations as the
queue has packets, and touches nothing else. -/
theorem Flush_loop_eq (fuel : Nat) (s : MediaSampleProvider)
    (h : s.m_packetQueue.length ≤ fuel) :
    MediaSampleProvider.Flush.loop fuel s = { s with m_packetQueue := [] } := by
  induction fuel generalizing s with
  | zero =>
    have hq : s.m_packetQueue = [] := List.length_eq_zero.mp (by omega)
    unfold MediaSampleProvider.Flush.loop
    cases s
    simp only at hq
    subst hq
    rfl
  | succ n ih =>
    unfold MediaSampleProvider.Flush.loop
    cases hq : s.m_packetQueue with
    | nil =>
      simp only [List.isEmpty_nil, if_true]
      cases s
      simp only at hq
      subst hq
      rfl
    | cons p rest =>
      simp only [List.isEmpty_cons, Bool.false_eq_true, if_false]
      have hpop : (s.PopPacket).2 = { s with m_packetQueue := rest } := by
        unfold MediaSampleProvider.PopPacket
        rw [hq]
      rw [hpop, ih]
      simp only [List.length_cons, hq] at h ⊢
      omega

/-- The whole effect of `Flush`. -/
theorem Flush_eq (s : MediaSampleProvider) :
    s.Flush = { s with
      m_packetQueue := []
      m_pAvCodecCtx := avcodec_flush_buffers s.m_pAvCodecCtx
      m_isDiscontinuous := true } := by
  unfold MediaSampleProvider.Flush
  simp only [Flush_loop_eq s.m_packetQueue.length s (Nat.le_refl _)]

/-- The whole effect of `DisableStream`. -/
theorem DisableStream_eq (s : MediaSampleProvider) :
    s.DisableStream = { s with
      m_packetQueue := []
      m_pAvCodecCtx := avcodec_flush_buffers s.m_pAvCodecCtx
      m_isDiscontinuous := true
      m_isEnabled := false } := by
  unfold MediaSampleProvider.DisableStream
  rw [Flush_eq]

/-- C5: for every provider state `Flush` leaves the queue empty and the
discontinuity flag set; on a queue that is already empty it changes only the
decoder and the flag; and a second `Flush` right after the first changes
nothing. -/
theorem Flush_idempotent (s : MediaSampleProvider) :
    s.Flush.m_packetQueue = [] ∧
    s.Flush.m_isDiscontinuous = true ∧
    (s.m_packetQueue = [] →
      s.Flush = { s with
        m_pAvCodecCtx := avcodec_flush_buffers s.m_pAvCodecCtx
        m_isDiscontinuous := true }) ∧
    s.Flush.Flush = s.Flush := by
  refine ⟨?_, ?_, ?_, ?_⟩
  · rw [Flush_eq]
  · rw [Flush_eq]
  · intro hq
    rw [Flush_eq]
    cases s
    simp only at hq
    subst hq
    rfl
  · rw [Flush_eq s.Flush, Flush_eq s]
    rfl

/-- C5 at concrete inputs: a provider with two queued packets, and the same
provider with an empty queue. -/
theorem Flush_idempotent_witness :
    ({ demoProvider with m_packetQueue := [⟨0, 1, 2, 3⟩, ⟨0, 4, 5, 6⟩] }).Flush
      = { demoProvider with m_isDiscontinuous := true } ∧
    demoProvider.Flush = { demoProvider with m_isDiscontinuous := true } ∧
    demoProvider.Flush.Flush = demoProvider.Flush := by
  refine ⟨by decide, ?_, ?_⟩
  · exact (Flush_idempotent demoProvider).2.2.1 rfl
  · exact (Flush_idempotent demoProvider).2.2.2

/-- C6: on a provider whose enabled flag is cleared `GetNextSample` returns no
sample and leaves everything as it was: the provider (queue, predicted
timestamp, enabled and discontinuity flags), the demuxer input, from which
nothing is read, and the other provider. -/
theorem GetNextSample_disabled {D : Type} (F : DoubleOps D) (impl : SampleProviderImpl)
    (e : Env) (hdis : e.self.m_isEnabled = false) :
    MediaSampleProvider.GetNextSample F impl e = (none, e) := by
  unfold MediaSampleProvider.GetNextSample
  simp [hdis]

/-- C6 at a concrete input: the disabled provider keeps its queued packet and
the demuxer keeps its two unread packets. -/
theorem GetNextSample_disabled_witness :
    let e : Env := { demoEnv with self :=
      { demoProvider with m_isEnabled := false, m_packetQueue := [⟨0, 1, 2, 3⟩] } }
    e.self.m_isEnabled = false ∧
    MediaSampleProvider.GetNextSample exactDouble passThrough e = (none, e) ∧
    (MediaSampleProvider.GetNextSample exactDouble passThrough e).2.avFormatCtx.packets.length
      = 2 := by
  intro e
  have h := GetNextSample_disabled exactDouble passThrough e rfl
  exact ⟨rfl, h, by rw [h]; rfl⟩

/-- C7: when the provider is enabled and the decode step returns anything but
`S_OK` (`S_FALSE` for the end of the stream, or a failure), `GetNextSample`
returns no sample and leaves the provider as `DisableStream` makes it from
the state the decode step left: disabled, queue empty, discontinuity flag
set. The result code plays no further part: a decode step that fails and one
that reports the end of the stream, leaving the same state behind, end in the
same state. -/
theorem GetNextSample_failure {D : Type} (F : DoubleOps D) (impl : SampleProviderImpl)
    (e : Env) (hen : e.self.m_isEnabled = true)
    (hbad : (impl.CreateNextSampleBuffer e).hr ≠ S_OK) :
    let r := impl.CreateNextSampleBuffer e
    let after := MediaSampleProvider.GetNextSample F impl e
    after = (none, { r.env with self := r.env.self.DisableStream }) ∧
    after.2.self.m_isEnabled = false ∧
    after.2.self.m_packetQueue = [] ∧
    after.2.self.m_isDiscontinuous = true ∧
    (∀ implEof : SampleProviderImpl,
      (implEof.CreateNextSampleBuffer e).hr = S_FALSE →
      (implEof.CreateNextSampleBuffer e).env = r.env →
      MediaSampleProvider.GetNextSample F implEof e = after) := by
  intro r after
  have h : after = (none, { r.env with self := r.env.self.DisableStream }) := by
    show MediaSampleProvider.GetNextSample F impl e = _
    unfold MediaSampleProvider.GetNextSample
    rw [if_pos hen]
    simp only [hbad, if_false]
    split <;> rfl
  refine ⟨h, ?_, ?_, ?_, ?_⟩
  · rw [h, DisableStream_eq]
  · rw [h, DisableStream_eq]
  · rw [h, DisableStream_eq]
  · intro implEof heof henv
    rw [h]
    unfold MediaSampleProvider.GetNextSample
    rw [if_pos hen]
    simp only [heof, henv]
    simp [S_OK, S_FALSE]

/-- C7 at a concrete input: an enabled provider with one queued packet, a decode
step that fails and one that reports the end of the stream. -/
theorem GetNextSample_failure_witness :
    let e : Env := { demoEnv with self := { demoProvider with m_packetQueue := [⟨0, 1, 2, 3⟩] } }
    e.self.m_isEnabled = true ∧
    (alwaysFails.CreateNextSampleBuffer e).hr ≠ S_OK ∧
    MediaSampleProvider.GetNextSample exactDouble alwaysFails e
      = (none, { demoEnv with self :=
          { demoProvider with m_isEnabled := false, m_isDiscontinuous := true } }) ∧
    MediaSampleProvider.GetNextSample exactDouble alwaysEof e
      = MediaSampleProvider.GetNextSample exactDouble alwaysFails e := by
  intro e
  have h := GetNextSample_failure exactDouble alwaysFails e rfl (by decide)
  refine ⟨rfl, by decide, ?_, ?_⟩
  · rw [h.1]; decide
  · exact h.2.2.2.2 alwaysEof rfl rfl

/-! ## Call sequences: discontinuity after a flush, and the disabled provider -/

theorem GetNextPacket_sameButQueue_discontinuous (e : Env) (a b : LONGLONG) (r : PacketResult)
    (h : MediaSampleProvider.GetNextPacket e a b = some r) :
    r.env.self.m_isDiscontinuous = e.self.m_isDiscontinuous := by
  obtain ⟨e1, hloop, hsame⟩ :=
    GetNextPacket_loop_total (e.avFormatCtx.packets.length + 1) e (by omega)
  unfold MediaSampleProvider.GetNextPacket at h
  rw [hloop] at h
  cases h
  rw [← SameButQueue_discontinuous hsame]
  cases hq : e1.self.m_packetQueue with
  | nil => rw [GetNextPacket_take_nil e1 _ _ hq]
  | cons p rest => rw [GetNextPacket_take_cons e1 p rest _ _ hq]

/-- The pass-through decode step leaves the discontinuity flag alone. -/
theorem passThrough_keepsDiscontinuous : passThrough.KeepsDiscontinuous := by
  intro e
  show (match MediaSampleProvider.GetNextPacket e 0 0 with
    | some r =>
      ({ hr := r.hr, buffer := (r.avPacket.map AVPacket.data).getD 0
         pts := r.packetPts, dur := r.packetDuration, env := r.env } : DecodeResult)
    | none => { hr := E_FAIL, buffer := 0, pts := 0, dur := 0, env := e }).env.self.m_isDiscontinuous
      = e.self.m_isDiscontinuous
  cases h : MediaSampleProvider.GetNextPacket e 0 0 with
  | none => rfl
  | some r => exact GetNextPacket_sameButQueue_discontinuous e 0 0 r h

/-- A sample returned by `GetNextSample` carries the discontinuity flag the
provider had before the call, and the call clears the flag. -/
theorem GetNextSample_emits {D : Type} (F : DoubleOps D) (impl : SampleProviderImpl)
    (hk : impl.KeepsDiscontinuous) (e e2 : Env) (sample : MediaStreamSample)
    (h : MediaSampleProvider.GetNextSample F impl e = (some sample, e2)) :
    sample.Discontinuous = e.self.m_isDiscontinuous ∧ e2.self.m_isDiscontinuous = false := by
  unfold MediaSampleProvider.GetNextSample at h
  by_cases hen : e.self.m_isEnabled = true
  · rw [if_pos hen] at h
    by_cases hok : (impl.CreateNextSampleBuffer e).hr = S_OK
    · simp only [hok, if_true] at h
      have h1 := congrArg Prod.fst h
      have h2 := congrArg Prod.snd h
      simp only [Option.some.injEq] at h1
      subst h1
      subst h2
      exact ⟨hk e, rfl⟩
    · simp only [hok, if_false] at h
      split at h <;> simp at h
  · rw [if_neg hen] at h
    simp at h

/-- A call that returns no sample leaves a set discontinuity flag set. -/
theorem Call_apply_keeps_set {D : Type} (F : DoubleOps D) (impl : SampleProviderImpl)
    (c : Call) (e : Env)
    (hset : e.self.m_isDiscontinuous = true) (hnone : (c.apply F impl e).1 = none) :
    (c.apply F impl e).2.self.m_isDiscontinuous = true := by
  cases c with
  | QueuePacket packet =>
    show (e.self.QueuePacket packet).m_isDiscontinuous = true
    rw [SameButQueue_discontinuous (QueuePacket_sameButQueue _ _)]
    exact hset
  | EnableStream => exact hset
  | DisableStream =>
    show e.self.DisableStream.m_isDiscontinuous = true
    rw [DisableStream_eq]
  | Flush =>
    show e.self.Flush.m_isDiscontinuous = true
    rw [Flush_eq]
  | GetNextSample =>
    show (MediaSampleProvider.GetNextSample F impl e).2.self.m_isDiscontinuous = true
    have hnone' : (MediaSampleProvider.GetNextSample F impl e).1 = none := hnone
    unfold MediaSampleProvider.GetNextSample at hnone' ⊢
    by_cases hen : e.self.m_isEnabled = true
    · rw [if_pos hen] at hnone' ⊢
      by_cases hok : (impl.CreateNextSampleBuffer e).hr = S_OK
      · simp only [hok, if_true] at hnone'
        simp at hnone'
      · simp only [hok, if_false]
        split <;> (simp only; rw [DisableStream_eq])
    · rw [if_neg hen]
      exact hset

/-- A sequence of calls none of which returns a sample leaves a set
discontinuity flag set. -/
theorem runCalls_keeps_set {D : Type} (F : DoubleOps D) (impl : SampleProviderImpl)
    (cs : List Call) (e : Env)
    (hset : e.self.m_isDiscontinuous = true)
    (hnone : ∀ o ∈ (runCalls F impl cs e).1, o = none) :
    (runCalls F impl cs e).2.self.m_isDiscontinuous = true := by
  induction cs generalizing e with
  | nil => exact hset
  | cons c cs ih =>
    simp only [runCalls] at hnone ⊢
    have h1 : (c.apply F impl e).1 = none := hnone _ (List.mem_cons_self _ _)
    apply ih
    · exact Call_apply_keeps_set F impl c e hset h1
    · intro o ho
      exact hnone o (List.mem_cons_of_mem _ ho)

/-- Quiet calls (packet deliveries and `EnableStream`) do not touch the
discontinuity flag. -/
theorem runCalls_quiet_discontinuous {D : Type} (F : DoubleOps D) (impl : SampleProviderImpl)
    (cs : List Call) (e : Env) (hq : ∀ c ∈ cs, c.isQuiet = true) :
    (runCalls F impl cs e).2.self.m_isDiscontinuous = e.self.m_isDiscontinuous := by
  induction cs generalizing e with
  | nil => rfl
  | cons c cs ih =>
    simp only [runCalls]
    rw [ih _ (fun c' hc' => hq c' (List.mem_cons_of_mem _ hc'))]
    have hc := hq c (List.mem_cons_self _ _)
    cases c with
    | QueuePacket packet =>
      show (e.self.QueuePacket packet).m_isDiscontinuous = _
      exact SameButQueue_discontinuous (QueuePacket_sameButQueue _ _)
    | EnableStream => rfl
    | DisableStream => simp [Call.isQuiet] at hc
    | Flush => simp [Call.isQuiet] at hc
    | GetNextSample => simp [Call.isQuiet] at hc

/-- C4: take any provider and call `Flush`. Let any calls follow that return
no sample, then a `GetNextSample` that returns a sample: that sample has
`Discontinuous` set. Let packet deliveries and `EnableStream` calls follow (no
further flush), then a `GetNextSample` that returns a sample: that sample has
`Discontinuous` cleared. The decode step is any that leaves the discontinuity
flag alone. -/
theorem Flush_marks_next_sample_only {D : Type} (F : DoubleOps D) (impl : SampleProviderImpl)
    (hk : impl.KeepsDiscontinuous) (e e2 e4 : Env) (cs1 cs2 : List Call)
    (first second : MediaStreamSample)
    (hsilent : ∀ o ∈ (runCalls F impl cs1 { e with self := e.self.Flush }).1, o = none)
    (hfirst : MediaSampleProvider.GetNextSample F impl
      (runCalls F impl cs1 { e with self := e.self.Flush }).2 = (some first, e2))
    (hquiet : ∀ c ∈ cs2, c.isQuiet = true)
    (hsecond : MediaSampleProvider.GetNextSample F impl
      (runCalls F impl cs2 e2).2 = (some second, e4)) :
    first.Discontinuous = true ∧ second.Discontinuous = false := by
  have hflush : ({ e with self := e.self.Flush } : Env).self.m_isDiscontinuous = true := by
    show e.self.Flush.m_isDiscontinuous = true
    rw [Flush_eq]
  have h1 := runCalls_keeps_set F impl cs1 _ hflush hsilent
  have hemit1 := GetNextSample_emits F impl hk _ e2 first hfirst
  have h2 := runCalls_quiet_discontinuous F impl cs2 e2 hquiet
  have hemit2 := GetNextSample_emits F impl hk _ e4 second hsecond
  constructor
  · rw [hemit1.1, h1]
  · rw [hemit2.1, h2, hemit1.2]

/-- C4 at a concrete input: after the flush the stream is disabled, pulled
(nothing comes), and enabled again; the first sample is decoded from the packet
the demuxer delivers, the second from a packet queued in between. -/
theorem Flush_marks_next_sample_only_witness :
    let cs1 := [Call.DisableStream, Call.GetNextSample, Call.EnableStream]
    let cs2 := [Call.QueuePacket ⟨0, 183000, 3000, 9⟩]
    let rest : AVFormatContext :=
      { demoFormatCtx with packets := [some ⟨0, AV_NOPTS_VALUE, 3000, 8⟩] }
    let e2 : Env :=
      { demoEnv with self := { demoProvider with m_nextPacketPts := 183000 }
                     avFormatCtx := rest }
    let e4 : Env :=
      { demoEnv with self := { demoProvider with m_nextPacketPts := 186000 }
                     avFormatCtx := rest }
    let first : MediaStreamSample := ⟨7, 19900000, 333333, true, []⟩
    let second : MediaStreamSample := ⟨9, 20233333, 333333, false, []⟩
    MediaSampleProvider.GetNextSample exactDouble passThrough
      (runCalls exactDouble passThrough cs1 { demoEnv with self := demoEnv.self.Flush }).2
        = (some first, e2) ∧
    MediaSampleProvider.GetNextSample exactDouble passThrough
      (runCalls exactDouble passThrough cs2 e2).2 = (some second, e4) ∧
    first.Discontinuous = true ∧ second.Discontinuous = false := by
  intro cs1 cs2 rest e2 e4 first second
  have h1 : MediaSampleProvider.GetNextSample exactDouble passThrough
      (runCalls exactDouble passThrough cs1 { demoEnv with self := demoEnv.self.Flush }).2
        = (some first, e2) := by decide
  have h2 : MediaSampleProvider.GetNextSample exactDouble passThrough
      (runCalls exactDouble passThrough cs2 e2).2 = (some second, e4) := by decide
  exact ⟨h1, h2,
    Flush_marks_next_sample_only exactDouble passThrough passThrough_keepsDiscontinuous
      demoEnv e2 e4 cs1 cs2 first second (by decide) h1 (by decide) h2⟩

/-- On a disabled provider a packet delivery or a pull changes nothing and
returns nothing. -/
theorem Call_apply_disabled {D : Type} (F : DoubleOps D) (impl : SampleProviderImpl)
    (c : Call) (e : Env) (hc : c.isDeliveryOrPull = true)
    (hdis : e.self.m_isEnabled = false) :
    c.apply F impl e = (none, e) := by
  cases c with
  | QueuePacket packet =>
    show (none, { e with self := e.self.QueuePacket packet }) = (none, e)
    unfold MediaSampleProvider.QueuePacket
    simp [hdis]
  | GetNextSample =>
    show MediaSampleProvider.GetNextSample F impl e = (none, e)
    unfold MediaSampleProvider.GetNextSample
    simp [hdis]
  | EnableStream => simp [Call.isDeliveryOrPull] at hc
  | DisableStream => simp [Call.isDeliveryOrPull] at hc
  | Flush => simp [Call.isDeliveryOrPull] at hc

theorem runCalls_disabled {D : Type} (F : DoubleOps D) (impl : SampleProviderImpl)
    (cs : List Call) (e : Env) (hcs : ∀ c ∈ cs, c.isDeliveryOrPull = true)
    (hdis : e.self.m_isEnabled = false) :
    runCalls F impl cs e = (List.replicate cs.length none, e) := by
  induction cs with
  | nil => rfl
  | cons c cs ih =>
    simp only [runCalls]
    rw [Call_apply_disabled F impl c e (hcs c (List.mem_cons_self _ _)) hdis]
    simp only
    rw [ih (fun c' hc' => hcs c' (List.mem_cons_of_mem _ hc'))]
    rfl

/-- C8: after `DisableStream` the queue is empty; every packet then handed to
`QueuePacket` is dropped; and through any sequence of packet deliveries and
`GetNextSample` calls (no `EnableStream`) every call returns no sample and the
provider stays exactly as `DisableStream` left it, so its queue stays empty. -/
theorem DisableStream_drops_packets {D : Type} (F : DoubleOps D) (impl : SampleProviderImpl)
    (e : Env) (cs : List Call) (hcs : ∀ c ∈ cs, c.isDeliveryOrPull = true) :
    let e0 : Env := { e with self := e.self.DisableStream }
    e0.self.m_packetQueue = [] ∧
    (∀ packet, e0.self.QueuePacket packet = e0.self) ∧
    runCalls F impl cs e0 = (List.replicate cs.length none, e0) ∧
    (runCalls F impl cs e0).2.self.m_packetQueue = [] := by
  intro e0
  have hdis : e0.self.m_isEnabled = false := by
    show e.self.DisableStream.m_isEnabled = false
    rw [DisableStream_eq]
  have hq : e0.self.m_packetQueue = [] := by
    show e.self.DisableStream.m_packetQueue = []
    rw [DisableStream_eq]
  have hrun := runCalls_disabled F impl cs e0 hcs hdis
  refine ⟨hq, ?_, hrun, ?_⟩
  · intro packet
    have hdis' : e.self.DisableStream.m_isEnabled = false := hdis
    show e.self.DisableStream.QueuePacket packet = e.self.DisableStream
    unfold MediaSampleProvider.QueuePacket
    simp [hdis']
  · rw [hrun]
    exact hq

/-- C8 at a concrete input: an enabled provider with a queued packet is
disabled, then receives two packets and two pulls. -/
theorem DisableStream_drops_packets_witness :
    let e : Env := { demoEnv with self := { demoProvider with m_packetQueue := [⟨0, 1, 2, 3⟩] } }
    let cs := [Call.QueuePacket ⟨0, 4, 5, 6⟩, Call.GetNextSample,
      Call.QueuePacket ⟨0, 7, 8, 9⟩, Call.GetNextSample]
    (∀ c ∈ cs, c.isDeliveryOrPull = true) ∧
    runCalls exactDouble passThrough cs { e with self := e.self.DisableStream }
      = ([none, none, none, none],
         { demoEnv with self :=
            { demoProvider with m_isEnabled := false, m_isDiscontinuous := true } }) := by
  intro e cs
  refine ⟨by decide, ?_⟩
  rw [(DisableStream_drops_packets exactDouble passThrough e cs (by decide)).2.2.1]
  decide

/-! ## The queue is first-in first-out -/

/-- Packets queued on an enabled provider are appended in order. -/
theorem foldl_QueuePacket (ps : List AVPacket) (s : MediaSampleProvider)
    (hen : s.m_isEnabled = true) :
    ps.foldl MediaSampleProvider.QueuePacket s
      = { s with m_packetQueue := s.m_packetQueue ++ ps } := by
  induction ps generalizing s with
  | nil => simp
  | cons p ps ih =>
    have h1 : s.QueuePacket p = { s with m_packetQueue := s.m_packetQueue ++ [p] } := by
      unfold MediaSampleProvider.QueuePacket
      simp [hen]
    rw [List.foldl_cons, h1, ih { s with m_packetQueue := s.m_packetQueue ++ [p] } hen]
    simp

/-- Popping as many times as the queue has packets returns them front first
and empties the queue. -/
theorem PopPackets_all (q : List AVPacket) (s : MediaSampleProvider)
    (hq : s.m_packetQueue = q) :
    PopPackets q.length s = (q.map some, { s with m_packetQueue := [] }) := by
  induction q generalizing s with
  | nil =>
    cases s
    simp only at hq
    subst hq
    rfl
  | cons p rest ih =>
    have hpop : s.PopPacket = (some p, { s with m_packetQueue := rest }) := by
      unfold MediaSampleProvider.PopPacket
      rw [hq]
    simp only [List.length_cons, PopPackets, hpop, List.map_cons]
    rw [ih { s with m_packetQueue := rest } rfl]

/-- Calling `GetNextPacket` as many times as the queue has packets returns them
front first, each with `S_OK`, without reading from the demuxer. -/
theorem GetNextPackets_all (q : List AVPacket) (e : Env) (hq : e.self.m_packetQueue = q) :
    (GetNextPackets q.length e).map (fun r => (r.hr, r.avPacket, r.env.avFormatCtx))
      = q.map (fun p => (S_OK, some p, e.avFormatCtx)) := by
  induction q generalizing e with
  | nil => rfl
  | cons p rest ih =>
    have hne : e.self.m_packetQueue.isEmpty = false := by rw [hq]; rfl
    have hget : MediaSampleProvider.GetNextPacket e 0 0
        = some (MediaSampleProvider.GetNextPacket.take e 0 0) := by
      unfold MediaSampleProvider.GetNextPacket
      rw [GetNextPacket_loop_nonempty _ e hne]
    simp only [List.length_cons, GetNextPackets, hget, List.map_cons]
    rw [GetNextPacket_take_cons e p rest 0 0 hq]
    simp only
    rw [ih _ rfl]

/-- C9: on an enabled provider with an empty queue, after any sequence of
packets has been handed to `QueuePacket`, the queue holds exactly those
packets in the order of delivery; as many `PopPacket` calls as there are
packets return them in that order, one each, and leave the queue empty; the
same number of `GetNextPacket` calls return them in that order, each with
`S_OK`; and `PopPacket` on an empty queue returns null and changes nothing. -/
theorem PacketQueue_fifo (s : MediaSampleProvider) (ps : List AVPacket)
    (hen : s.m_isEnabled = true) (hempty : s.m_packetQueue = []) :
    let s1 := ps.foldl MediaSampleProvider.QueuePacket s
    s1.m_packetQueue = ps ∧
    PopPackets ps.length s1 = (ps.map some, s) ∧
    (∀ avFormatCtx sibling,
      (GetNextPackets ps.length ⟨s1, avFormatCtx, sibling⟩).map (fun r => (r.hr, r.avPacket))
        = ps.map (fun p => (S_OK, some p))) ∧
    (∀ t : MediaSampleProvider, t.m_packetQueue = [] → t.PopPacket = (none, t)) := by
  intro s1
  have hs1 : s1 = { s with m_packetQueue := ps } := by
    show ps.foldl MediaSampleProvider.QueuePacket s = _
    rw [foldl_QueuePacket ps s hen, hempty]
    simp
  have hs : ({ s with m_packetQueue := [] } : MediaSampleProvider) = s := by
    cases s
    simp only at hempty
    subst hempty
    rfl
  refine ⟨by rw [hs1], ?_, ?_, ?_⟩
  · rw [PopPackets_all ps s1 (by rw [hs1]), hs1]
    exact congrArg _ hs
  · intro avFormatCtx sibling
    have h := GetNextPackets_all ps ⟨s1, avFormatCtx, sibling⟩ (by rw [hs1])
    have h' := congrArg (List.map (fun x : HRESULT × Option AVPacket × AVFormatContext =>
      (x.1, x.2.1))) h
    simpa [List.map_map, Function.comp] using h'
  · intro t ht
    unfold MediaSampleProvider.PopPacket
    rw [ht]

/-- C9 at a concrete input: three packets queued on the enabled, empty
`demoProvider`. -/
theorem PacketQueue_fifo_witness :
    let ps : List AVPacket := [⟨0, 30, 1, 1⟩, ⟨0, 10, 1, 2⟩, ⟨0, 20, 1, 3⟩]
    let s1 := ps.foldl MediaSampleProvider.QueuePacket demoProvider
    demoProvider.m_isEnabled = true ∧ demoProvider.m_packetQueue = [] ∧
    PopPackets 3 s1 = (ps.map some, demoProvider) ∧
    PopPackets 4 s1 = (ps.map some ++ [none], demoProvider) := by
  intro ps s1
  refine ⟨rfl, rfl, (PacketQueue_fifo demoProvider ps rfl rfl).2.1, by decide⟩

/-! ## Seek -/

/-- The flush `Seek` applies to a provider has the effect of `Flush`: the
second decoder reset finds the decoder already reset. -/
theorem seekFlush_eq_Flush (p : MediaSampleProvider) :
    FFmpegInteropMSS.seekFlush p = p.Flush := by
  unfold FFmpegInteropMSS.seekFlush
  rw [Flush_eq]
  rfl

/-- A reference stream exists exactly when a video or an audio stream does. -/
theorem seekStreamIndex_nonneg (this : FFmpegInteropMSS) :
    this.seekStreamIndex ≥ 0 ↔ (this.videoStreamIndex ≥ 0 ∨ this.audioStreamIndex ≥ 0) := by
  unfold FFmpegInteropMSS.seekStreamIndex
  by_cases hv : this.videoStreamIndex ≥ 0
  · simp [hv]
  · by_cases ha : this.audioStreamIndex ≥ 0
    · simp [hv, ha]
    · simp [hv, ha]

/-- C10: when a video or an audio stream exists and `av_seek_frame` does not
return a negative code, `Seek` returns `S_OK` and both providers, where
present, are as `Flush` leaves them (queue empty, discontinuity flag set).
When `av_seek_frame` returns a negative code, or neither stream exists, `Seek`
returns `E_FAIL` and both providers are exactly as before. -/
theorem Seek_flushes_all_or_none {D : Type} (F : DoubleOps D) (av_seek_frame : SeekFrame)
    (this : FFmpegInteropMSS) (position : LONGLONG) :
    let hasStream := this.videoStreamIndex ≥ 0 ∨ this.audioStreamIndex ≥ 0
    let code := (av_seek_frame this.avFormatCtx this.seekStreamIndex
      (this.seekTarget F position) AVSEEK_FLAG_BACKWARD).1
    let r := this.Seek F av_seek_frame position
    (hasStream ∧ ¬ code < 0 →
      r.1 = S_OK ∧
      r.2.audioSampleProvider = this.audioSampleProvider.map MediaSampleProvider.Flush ∧
      r.2.videoSampleProvider = this.videoSampleProvider.map MediaSampleProvider.Flush ∧
      ∀ p, (r.2.audioSampleProvider = some p ∨ r.2.videoSampleProvider = some p) →
        p.m_packetQueue = [] ∧ p.m_isDiscontinuous = true) ∧
    (¬ hasStream ∨ code < 0 →
      r.1 = E_FAIL ∧ r.1 < 0 ∧
      r.2.audioSampleProvider = this.audioSampleProvider ∧
      r.2.videoSampleProvider = this.videoSampleProvider) := by
  intro hasStream code r
  have hfun : FFmpegInteropMSS.seekFlush = MediaSampleProvider.Flush :=
    funext seekFlush_eq_Flush
  constructor
  · rintro ⟨hs, hc⟩
    have hidx : this.seekStreamIndex ≥ 0 := (seekStreamIndex_nonneg this).mpr hs
    have hr : r = (S_OK, { this with
        avFormatCtx := (av_seek_frame this.avFormatCtx this.seekStreamIndex
          (this.seekTarget F position) AVSEEK_FLAG_BACKWARD).2
        audioSampleProvider := this.audioSampleProvider.map MediaSampleProvider.Flush
        videoSampleProvider := this.videoSampleProvider.map MediaSampleProvider.Flush }) := by
      show this.Seek F av_seek_frame position = _
      unfold FFmpegInteropMSS.Seek
      simp only
      rw [if_pos hidx, if_neg hc, hfun]
    rw [hr]
    refine ⟨rfl, rfl, rfl, ?_⟩
    intro p hp
    have hflushed : ∃ p0 : MediaSampleProvider, p = p0.Flush := by
      rcases hp with hp | hp
      · simp only [Option.map_eq_some'] at hp
        obtain ⟨p0, _, h0⟩ := hp
        exact ⟨p0, h0.symm⟩
      · simp only [Option.map_eq_some'] at hp
        obtain ⟨p0, _, h0⟩ := hp
        exact ⟨p0, h0.symm⟩
    obtain ⟨p0, rfl⟩ := hflushed
    rw [Flush_eq]
    exact ⟨rfl, rfl⟩
  · intro hfail
    by_cases hidx : this.seekStreamIndex ≥ 0
    · have hc : code < 0 := by
        rcases hfail with hno | hc
        · exact absurd ((seekStreamIndex_nonneg this).mp hidx) hno
        · exact hc
      have hr : r = (E_FAIL, { this with
          avFormatCtx := (av_seek_frame this.avFormatCtx this.seekStreamIndex
            (this.seekTarget F position) AVSEEK_FLAG_BACKWARD).2 }) := by
        show this.Seek F av_seek_frame position = _
        unfold FFmpegInteropMSS.Seek
        simp only
        rw [if_pos hidx, if_pos hc]
      rw [hr]
      exact ⟨rfl, (by decide : E_FAIL < 0), rfl, rfl⟩
    · have hr : r = (E_FAIL, this) := by
        show this.Seek F av_seek_frame position = _
        unfold FFmpegInteropMSS.Seek
        simp only
        rw [if_neg hidx]
      rw [hr]
      exact ⟨rfl, (by decide : E_FAIL < 0), rfl, rfl⟩

/-- C10 at concrete inputs: a session whose audio and video providers hold
queued packets, with a container seek that succeeds, one that is rejected, and
with no stream at all. -/
theorem Seek_flushes_all_or_none_witness :
    (demoSession.Seek exactDouble seekSucceeds 0).1 = S_OK ∧
    (demoSession.Seek exactDouble seekSucceeds 0).2.audioSampleProvider
      = some { demoProvider with m_streamIndex := 1, m_isDiscontinuous := true } ∧
    (demoSession.Seek exactDouble seekSucceeds 0).2.videoSampleProvider
      = some { demoProvider with m_isDiscontinuous := true } ∧
    (demoSession.Seek exactDouble seekRejected 0).1 = E_FAIL ∧
    (demoSession.Seek exactDouble seekRejected 0).2.audioSampleProvider
      = demoSession.audioSampleProvider ∧
    (demoSession.Seek exactDouble seekRejected 0).2.videoSampleProvider
      = demoSession.videoSampleProvider ∧
    ({ demoSession with audioStreamIndex := -1, videoStreamIndex := -1 }.Seek
      exactDouble seekSucceeds 0).1 = E_FAIL := by
  have hok := (Seek_flushes_all_or_none exactDouble seekSucceeds demoSession 0).1
    ⟨by decide, by decide⟩
  have hrej := (Seek_flushes_all_or_none exactDouble seekRejected demoSession 0).2
    (Or.inr (by decide))
  have hnone := (Seek_flushes_all_or_none exactDouble seekSucceeds
    { demoSession with audioStreamIndex := -1, videoStreamIndex := -1 } 0).2
    (Or.inl (by decide))
  refine ⟨hok.1, ?_, ?_, hrej.1, hrej.2.2.1, hrej.2.2.2, hnone.1⟩
  · rw [hok.2.1]; decide
  · rw [hok.2.2.1]; decide

/-! ## Start requests -/

/-- The constructor leaves `isFirstSeek` set. -/
theorem ctor_isFirstSeek (members : FFmpegInteropMSS) :
    (FFmpegInteropMSS.ctor members).isFirstSeek = true := rfl

/-- C11: while `isFirstSeek` is still set, as the constructor leaves it, a start
request for position 0 only clears `isFirstSeek`: whatever `av_seek_frame`
would do, the demuxer context and both providers are untouched and no start
position is acknowledged. After a first start request of any kind
`isFirstSeek` is cleared, and a request for position 0 with a media duration
of at least 0 then runs `Seek(0)`: the session is the one `Seek` leaves and
the position is acknowledged exactly when `Seek` succeeds. -/
theorem OnStarting_first_zero_is_noop {D : Type} (F : DoubleOps D) (av_seek_frame : SeekFrame)
    (this : FFmpegInteropMSS) (hfirst : this.isFirstSeek = true) :
    this.OnStarting F av_seek_frame (some 0)
      = { this := { this with isFirstSeek := false }, actualStartPosition := none } ∧
    ∀ firstRequest : Option LONGLONG,
      let later := (this.OnStarting F av_seek_frame firstRequest).this
      later.isFirstSeek = false ∧
      (0 ≤ later.mediaDuration →
        later.OnStarting F av_seek_frame (some 0)
          = { this := { (later.Seek F av_seek_frame 0).2 with isFirstSeek := false }
              actualStartPosition :=
                if (later.Seek F av_seek_frame 0).1 ≥ 0 then some 0 else none }) := by
  constructor
  · unfold FFmpegInteropMSS.OnStarting
    simp [hfirst]
  · intro firstRequest later
    have hl : later.isFirstSeek = false := by
      show (this.OnStarting F av_seek_frame firstRequest).this.isFirstSeek = false
      unfold FFmpegInteropMSS.OnStarting
      cases firstRequest with
      | none => rfl
      | some position =>
        simp only
        split <;> rfl
    refine ⟨hl, ?_⟩
    intro hdur
    unfold FFmpegInteropMSS.OnStarting
    simp [hl, hdur]

/-- C11 at a concrete input: on the freshly constructed session over
`demoSession` a request for position 0 changes nothing but `isFirstSeek`; the
same request made again flushes both providers and is acknowledged. -/
theorem OnStarting_first_zero_is_noop_witness :
    let this := FFmpegInteropMSS.ctor
      { demoSession with audioStreamIndex := 1, videoStreamIndex := 0 }
    let opened := { this with audioStreamIndex := 1, videoStreamIndex := 0 }
    opened.isFirstSeek = true ∧
    opened.OnStarting exactDouble seekSucceeds (some 0)
      = { this := { demoSession with isFirstSeek := false }, actualStartPosition := none } ∧
    ((opened.OnStarting exactDouble seekSucceeds (some 0)).this.OnStarting exactDouble
        seekSucceeds (some 0)).actualStartPosition = some 0 ∧
    ((opened.OnStarting exactDouble seekSucceeds (some 0)).this.OnStarting exactDouble
        seekSucceeds (some 0)).this.videoSampleProvider
      = some { demoProvider with m_isDiscontinuous := true } := by
  intro this opened
  have h := OnStarting_first_zero_is_noop exactDouble seekSucceeds opened rfl
  refine ⟨rfl, ?_, ?_, ?_⟩
  · rw [h.1]; decide
  · rw [(h.2 (some 0)).2 (by decide)]; decide
  · rw [(h.2 (some 0)).2 (by decide)]; decide

/-- C12: a start request for a position greater than the media duration only
clears `isFirstSeek`: `Seek` is not called, so whatever `av_seek_frame` would
do the demuxer context and both providers are as before (nothing is flushed),
and no start position is acknowledged, which is how the failure shows to the
caller. -/
theorem OnStarting_beyond_duration {D : Type} (F : DoubleOps D) (av_seek_frame : SeekFrame)
    (this : FFmpegInteropMSS) (position : LONGLONG) (hbeyond : position > this.mediaDuration) :
    let r := this.OnStarting F av_seek_frame (some position)
    r = { this := { this with isFirstSeek := false }, actualStartPosition := none } ∧
    r.actualStartPosition = none ∧
    r.this.audioSampleProvider = this.audioSampleProvider ∧
    r.this.videoSampleProvider = this.videoSampleProvider ∧
    r.this.avFormatCtx = this.avFormatCtx := by
  intro r
  have h : r = { this := { this with isFirstSeek := false }, actualStartPosition := none } := by
    show this.OnStarting F av_seek_frame (some position) = _
    unfold FFmpegInteropMSS.OnStarting
    have : ¬ position ≤ this.mediaDuration := not_le.mpr hbeyond
    simp [this]
  rw [h]
  exact ⟨rfl, rfl, rfl, rfl, rfl⟩

/-- C12 at a concrete input: `demoSession` lasts 50000000 ticks; a request for
50000001 leaves the queued packets of both providers in place. -/
theorem OnStarting_beyond_duration_witness :
    (50000001 : LONGLONG) > demoSession.mediaDuration ∧
    (demoSession.OnStarting exactDouble seekSucceeds (some 50000001)).actualStartPosition
      = none ∧
    (demoSession.OnStarting exactDouble seekSucceeds (some 50000001)).this.audioSampleProvider
      = demoSession.audioSampleProvider ∧
    (demoSession.OnStarting exactDouble seekSucceeds (some 50000001)).this.videoSampleProvider
      = demoSession.videoSampleProvider := by
  have h := OnStarting_beyond_duration exactDouble seekSucceeds demoSession 50000001
    (by decide)
  exact ⟨by decide, h.2.1, h.2.2.1, h.2.2.2.1⟩

/-! ## Pixel format selection -/

/-- Once a format is selected, the rest of the list can only switch the
selection to NV12, and does so unless the selection is YUVA420P. -/
theorem get_format_loop_selected (P : PixFmtTable) (offered : List Int) (result : Int)
    (hterm : ∀ f ∈ offered, f ≠ -1) (hsel : result ≠ -1)
    (hnv : P.AV_PIX_FMT_NV12 ≠ -1) :
    get_format.loop P (offered ++ [-1]) result =
      if result = P.AV_PIX_FMT_YUVA420P then result
      else if P.AV_PIX_FMT_NV12 ∈ offered then P.AV_PIX_FMT_NV12
      else result := by
  induction offered generalizing result with
  | nil =>
    have h1 : ¬ ((-1 : Int) = P.AV_PIX_FMT_NV12) := fun h => hnv h.symm
    simp [get_format.loop, hsel, h1]
  | cons f rest ih =>
    have hf : f ≠ -1 := hterm f (List.mem_cons_self _ _)
    have hrest : ∀ g ∈ rest, g ≠ -1 := fun g hg => hterm g (List.mem_cons_of_mem _ hg)
    simp only [List.cons_append, get_format.loop, hsel, false_and, and_false, if_false, hf,
      ne_eq, not_false_eq_true, if_true]
    simp only [List.append_eq]
    by_cases hy : result = P.AV_PIX_FMT_YUVA420P
    · have h2 : ¬ (f = P.AV_PIX_FMT_NV12 ∧ ¬ result = P.AV_PIX_FMT_YUVA420P) := by
        intro h; exact h.2 hy
      rw [if_neg h2, ih result hrest hsel]
      simp [hy]
    · by_cases hfn : f = P.AV_PIX_FMT_NV12
      · rw [if_pos ⟨hfn, hy⟩, ih f hrest hf]
        simp only [hy, if_false, hfn, List.mem_cons, true_or, if_true]
        split
        · rfl
        · split <;> rfl
      · have h2 : ¬ (f = P.AV_PIX_FMT_NV12 ∧ ¬ result = P.AV_PIX_FMT_YUVA420P) := by
          intro h; exact hfn h.1
        rw [if_neg h2, ih result hrest hsel]
        have hmem : (P.AV_PIX_FMT_NV12 ∈ f :: rest) ↔ P.AV_PIX_FMT_NV12 ∈ rest := by
          simp only [List.mem_cons]
          constructor
          · rintro (h | h)
            · exact absurd h.symm hfn
            · exact h
          · exact Or.inr
        simp only [hy, if_false, hmem]

/-- The result of `get_format` in terms of the first offered format that is
not hardware accelerated. -/
theorem get_format_eq (P : PixFmtTable) (offered : List Int)
    (hterm : ∀ f ∈ offered, f ≠ -1) (hnv : P.AV_PIX_FMT_NV12 ≠ -1)
    (hsoft : P.is_hwaccel_pix_fmt P.AV_PIX_FMT_NV12 = false) :
    get_format P (offered ++ [-1]) =
      match offered.find? (fun f => !P.is_hwaccel_pix_fmt f) with
      | none => -1
      | some first =>
        if first = P.AV_PIX_FMT_YUVA420P then first
        else if P.AV_PIX_FMT_NV12 ∈ offered then P.AV_PIX_FMT_NV12
        else first := by
  unfold get_format
  induction offered with
  | nil =>
    have h1 : ¬ ((-1 : Int) = P.AV_PIX_FMT_NV12) := fun h => hnv h.symm
    simp [get_format.loop, h1]
  | cons f rest ih =>
    have hf : f ≠ -1 := hterm f (List.mem_cons_self _ _)
    have hrest : ∀ g ∈ rest, g ≠ -1 := fun g hg => hterm g (List.mem_cons_of_mem _ hg)
    simp only [List.cons_append, get_format.loop, hf, ne_eq, not_false_eq_true, true_and,
      if_true]
    simp only [List.append_eq]
    cases hhw : P.is_hwaccel_pix_fmt f with
    | false =>
      simp only [Bool.false_eq_true, not_false_eq_true, if_true, List.find?_cons, hhw,
        Bool.not_false]
      rw [get_format_loop_selected P rest f hrest hf hnv]
      by_cases hy : f = P.AV_PIX_FMT_YUVA420P
      · simp [hy]
      · simp only [hy, if_false, List.mem_cons]
        by_cases hfn : P.AV_PIX_FMT_NV12 = f
        · simp [hfn]
        · simp [hfn]
    | true =>
      have hfn : f ≠ P.AV_PIX_FMT_NV12 := by
        intro h
        rw [h, hsoft] at hhw
        exact Bool.noConfusion hhw
      simp only [not_true_eq_false, if_false, hfn, false_and, List.find?_cons, hhw,
        Bool.not_true]
      rw [ih hrest]
      have hmem : (P.AV_PIX_FMT_NV12 ∈ f :: rest) ↔ P.AV_PIX_FMT_NV12 ∈ rest := by
        simp only [List.mem_cons]
        constructor
        · rintro (h | h)
          · exact absurd h.symm hfn
          · exact h
        · exact Or.inr
      simp only [hmem]

/-- C13: for a list of offered formats ended by -1, with NV12 itself not
hardware accelerated: the result is -1 or an offered format that is not
hardware accelerated; it is -1 when every offered format is hardware
accelerated; otherwise, with `first` the first offered format that is not
hardware accelerated, the result is NV12 when NV12 is offered and `first` is
not YUVA420P (the alpha-channel case), it is `first` when `first` is YUVA420P,
and it is `first` when NV12 is not offered. -/
theorem get_format_selection (P : PixFmtTable) (offered : List Int)
    (hterm : ∀ f ∈ offered, f ≠ -1) (hnv : P.AV_PIX_FMT_NV12 ≠ -1)
    (hsoft : P.is_hwaccel_pix_fmt P.AV_PIX_FMT_NV12 = false) :
    let result := get_format P (offered ++ [-1])
    (result = -1 ∨ (result ∈ offered ∧ P.is_hwaccel_pix_fmt result = false)) ∧
    ((∀ f ∈ offered, P.is_hwaccel_pix_fmt f = true) → result = -1) ∧
    (∀ first, offered.find? (fun f => !P.is_hwaccel_pix_fmt f) = some first →
      (P.AV_PIX_FMT_NV12 ∈ offered → first ≠ P.AV_PIX_FMT_YUVA420P →
        result = P.AV_PIX_FMT_NV12) ∧
      (first = P.AV_PIX_FMT_YUVA420P → result = first) ∧
      (P.AV_PIX_FMT_NV12 ∉ offered → result = first)) := by
  intro result
  have heq : result = _ := get_format_eq P offered hterm hnv hsoft
  have hfirst : ∀ first, offered.find? (fun f => !P.is_hwaccel_pix_fmt f) = some first →
      result = if first = P.AV_PIX_FMT_YUVA420P then first
        else if P.AV_PIX_FMT_NV12 ∈ offered then P.AV_PIX_FMT_NV12 else first := by
    intro first hf
    rw [heq, hf]
  refine ⟨?_, ?_, ?_⟩
  · cases hf : offered.find? (fun f => !P.is_hwaccel_pix_fmt f) with
    | none =>
      left
      rw [heq, hf]
    | some first =>
      right
      have hmem : first ∈ offered := List.mem_of_find?_eq_some hf
      have hs : P.is_hwaccel_pix_fmt first = false := by
        have := List.find?_some hf
        simpa using this
      rw [hfirst first hf]
      by_cases hy : first = P.AV_PIX_FMT_YUVA420P
      · rw [if_pos hy]; exact ⟨hmem, hs⟩
      · rw [if_neg hy]
        by_cases hn : P.AV_PIX_FMT_NV12 ∈ offered
        · rw [if_pos hn]; exact ⟨hn, hsoft⟩
        · rw [if_neg hn]; exact ⟨hmem, hs⟩
  · intro hall
    have hnone : offered.find? (fun f => !P.is_hwaccel_pix_fmt f) = none := by
      rw [List.find?_eq_none]
      intro f hf
      simp [hall f hf]
    rw [heq, hnone]
  · intro first hf
    refine ⟨?_, ?_, ?_⟩
    · intro hn hy
      rw [hfirst first hf, if_neg hy, if_pos hn]
    · intro hy
      rw [hfirst first hf, if_pos hy]
    · intro hn
      rw [hfirst first hf, if_neg hn]
      split <;> rfl

/-- C13 at concrete inputs, with NV12 = 23, YUVA420P = 33 and the formats 44
and 53 hardware accelerated. -/
theorem get_format_selection_witness :
    get_format demoPixFmt ([44, 0, 23, 33] ++ [-1]) = 23 ∧
    get_format demoPixFmt ([44, 33, 23] ++ [-1]) = 33 ∧
    get_format demoPixFmt ([44, 0, 5] ++ [-1]) = 0 ∧
    get_format demoPixFmt ([44, 53] ++ [-1]) = -1 := by
  have h1 := (get_format_selection demoPixFmt [44, 0, 23, 33] (by decide) (by decide)
    (by decide)).2.2 0 (by decide)
  have h2 := (get_format_selection demoPixFmt [44, 33, 23] (by decide) (by decide)
    (by decide)).2.2 33 (by decide)
  have h3 := (get_format_selection demoPixFmt [44, 0, 5] (by decide) (by decide)
    (by decide)).2.2 0 (by decide)
  have h4 := (get_format_selection demoPixFmt [44, 53] (by decide) (by decide)
    (by decide)).2.1 (by decide)
  exact ⟨h1.1 (by decide) (by decide), h2.2.1 (by decide), h3.2.2 (by decide), h4⟩

/-! ## Opening a source without usable streams -/

/-- With no stream set up, `InitFFmpegContext` decides by the media stream
source alone: it fails with `E_OUTOFMEMORY` when there is none and succeeds,
adding no descriptor, when the caller supplied one. -/
theorem InitFFmpegContext_no_streams {D : Type} (F : DoubleOps D) (a : OpenAnswers)
    (this : OpenMembers)
    (hinfo : ¬ a.avformat_find_stream_info < 0) (hreader : a.readerCreated = true)
    (hnoAudio : a.IsFrameGrabber = true ∨ a.audio.av_find_best_stream = AVERROR_STREAM_NOT_FOUND
      ∨ a.audio.codecFound = false)
    (hnoVideo : a.video.av_find_best_stream = AVERROR_STREAM_NOT_FOUND
      ∨ a.video.codecFound = false ∨ a.videoDisposition = AV_DISPOSITION_ATTACHED_PIC)
    (hdesc : this.audioStreamDescriptor = false ∧ this.videoStreamDescriptor = false) :
    (this.mss = none → (FFmpegInteropMSS.InitFFmpegContext F a this).1 = E_OUTOFMEMORY) ∧
    (∀ m, this.mss = some m →
      (FFmpegInteropMSS.InitFFmpegContext F a this).1 = S_OK ∧
      ∃ m', (FFmpegInteropMSS.InitFFmpegContext F a this).2.mss = some m' ∧
        m'.descriptors = m.descriptors ∧ m'.handlersRegistered = true) := by
  obtain ⟨hda, hdv⟩ := hdesc
  have hS : (0 : Int) ≤ S_OK := by decide
  constructor
  · intro hmss
    unfold FFmpegInteropMSS.InitFFmpegContext
    simp only [hinfo, if_false, hreader, if_true, hS, ge_iff_le]
    rcases hnoAudio with ha | ha | ha <;> rcases hnoVideo with hv | hv | hv <;>
      by_cases hg : a.IsFrameGrabber = true <;>
      by_cases hai : a.audio.av_find_best_stream = AVERROR_STREAM_NOT_FOUND <;>
      by_cases hvi : a.video.av_find_best_stream = AVERROR_STREAM_NOT_FOUND <;>
      by_cases hvc : a.video.codecFound = true <;>
      simp_all [S_OK]
  · intro m hmss
    unfold FFmpegInteropMSS.InitFFmpegContext
    simp only [hinfo, if_false, hreader, if_true, hS, ge_iff_le]
    rcases hnoAudio with ha | ha | ha <;> rcases hnoVideo with hv | hv | hv <;>
      by_cases hg : a.IsFrameGrabber = true <;>
      by_cases hai : a.audio.av_find_best_stream = AVERROR_STREAM_NOT_FOUND <;>
      by_cases hvi : a.video.av_find_best_stream = AVERROR_STREAM_NOT_FOUND <;>
      by_cases hvc : a.video.codecFound = true <;>
      simp_all [S_OK] <;> split <;> simp

/-- C14: run on a source that opens without error and has no audio and no
video stream (and on a music file whose only video stream is its cover art and
whose audio has no decoder). Opening from a byte stream with a media stream
source supplied by the caller succeeds and returns a session with no stream
descriptor set and none added to the source; opening by URI fails, with
`E_OUTOFMEMORY`. -/
theorem CreateFromStream_without_streams_opens :
    (∃ session,
      FFmpegInteropMSS.CreateFromStream exactDouble noStreamAnswers (some suppliedMss)
        = Except.ok session ∧
      session.audioStreamDescriptor = false ∧ session.videoStreamDescriptor = false ∧
      session.mss = some { suppliedMss with
        Duration := 30000000, CanSeek := true, handlersRegistered := true }) ∧
    (∃ session,
      FFmpegInteropMSS.CreateFromStream exactDouble coverArtAnswers (some suppliedMss)
        = Except.ok session ∧
      session.audioStreamDescriptor = false ∧ session.videoStreamDescriptor = false ∧
      session.videoStreamIndex = AVERROR_STREAM_NOT_FOUND) ∧
    FFmpegInteropMSS.CreateFromUri exactDouble noStreamAnswers = Except.error E_OUTOFMEMORY ∧
    FFmpegInteropMSS.CreateFromUri exactDouble coverArtAnswers = Except.error E_OUTOFMEMORY ∧
    FFmpegInteropMSS.CreateFromStream exactDouble noStreamAnswers none
      = Except.error E_OUTOFMEMORY := by
  refine ⟨⟨_, rfl, by decide, by decide, by decide⟩, ⟨_, rfl, by decide, by decide, by decide⟩,
    rfl, rfl, rfl⟩

/-! ## The video stream descriptor and the sample properties -/

/-- Inserting under a key adds no other key. -/
theorem PropertySet_Insert_keys {V : Type} (props : List (String × V)) (key : String)
    (value : V) (entry : String × V) (h : entry ∈ PropertySet.Insert props key value) :
    entry ∈ props ∨ entry.1 = key := by
  unfold PropertySet.Insert at h
  rw [List.mem_append] at h
  rcases h with h | h
  · left; exact (List.mem_filter.mp h).1
  · right
    rw [List.mem_singleton] at h
    rw [h]

/-- C17: the chroma-siting entry `SetSampleProperties` stores on a fresh sample
is MPEG2 for the chroma location left, MPEG1 for center, DV_PAL for top-left
on an interlaced frame and Cosited for top-left on a progressive frame; these
four values are pairwise distinct; for every other chroma location no entry
is stored under `MF_MT_VIDEO_CHROMA_SITING`. -/
theorem SetSampleProperties_chroma_siting (this : UncompressedVideoSampleProvider) :
    let siting := PropertySet.Lookup (this.SetSampleProperties []).2 "MF_MT_VIDEO_CHROMA_SITING"
    (this.m_chroma_location = AVCHROMA_LOC_LEFT →
      siting = some MFVideoChromaSubsampling_MPEG2) ∧
    (this.m_chroma_location = AVCHROMA_LOC_CENTER →
      siting = some MFVideoChromaSubsampling_MPEG1) ∧
    (this.m_chroma_location = AVCHROMA_LOC_TOPLEFT → this.m_interlaced_frame = true →
      siting = some MFVideoChromaSubsampling_DV_PAL) ∧
    (this.m_chroma_location = AVCHROMA_LOC_TOPLEFT → this.m_interlaced_frame = false →
      siting = some MFVideoChromaSubsampling_Cosited) ∧
    [MFVideoChromaSubsampling_MPEG2, MFVideoChromaSubsampling_MPEG1,
      MFVideoChromaSubsampling_DV_PAL, MFVideoChromaSubsampling_Cosited].Nodup ∧
    (this.m_chroma_location ≠ AVCHROMA_LOC_LEFT →
      this.m_chroma_location ≠ AVCHROMA_LOC_CENTER →
      this.m_chroma_location ≠ AVCHROMA_LOC_TOPLEFT → siting = none) := by
  obtain ⟨ctx, st, fmt, subtype, dw, dh, il, tff, loc⟩ := this
  simp only
  refine ⟨?_, ?_, ?_, ?_, by decide, ?_⟩
  · intro h
    subst h
    cases il <;> cases tff <;> rfl
  · intro h
    subst h
    cases il <;> cases tff <;> rfl
  · intro h hi
    subst h
    subst hi
    cases tff <;> rfl
  · intro h hi
    subst h
    subst hi
    rfl
  · intro h1 h2 h3
    unfold UncompressedVideoSampleProvider.SetSampleProperties
    simp only [h1, h2, h3, if_false]
    cases il <;> cases tff <;> rfl

/-- C17 at concrete inputs: a progressive frame with chroma location top-left
gets the value 7, and a frame with chroma location 4 (top) gets no
chroma-siting entry. -/
theorem SetSampleProperties_chroma_siting_witness :
    ({ demoVideoProvider with m_chroma_location := 3 }.SetSampleProperties []).2
      = [("MFSampleExtension_Interlaced", 0), ("MF_MT_VIDEO_CHROMA_SITING", 7)] ∧
    PropertySet.Lookup ({ demoVideoProvider with m_chroma_location := 4 }.SetSampleProperties
      []).2 "MF_MT_VIDEO_CHROMA_SITING" = none := by
  refine ⟨by decide, ?_⟩
  exact (SetSampleProperties_chroma_siting
    { demoVideoProvider with m_chroma_location := 4 }).2.2.2.2.2 (by decide) (by decide)
    (by decide)

/-! ## Order of timestamps -/

theorem SameSetting_refl (e : Env) : e.SameSetting e :=
  ⟨rfl, rfl, rfl, rfl, rfl⟩

/-- C18: `Flush` empties the queue, resets the decoder and sets the
discontinuity flag, and leaves every other member as it was: the predicted
timestamp, the start offset, the enabled flag and the stream index. The flush
of a successful `Seek` is the same, and `DisableStream` differs from it only
in clearing the enabled flag. Hence a packet without pts that is queued and
dequeued right after a flush is stamped with the prediction from before the
flush. -/
theorem Flush_keeps_prediction (e : Env) (packet : AVPacket)
    (hen : e.self.m_isEnabled = true) (hnopts : packet.pts = AV_NOPTS_VALUE) :
    e.self.Flush = { e.self with
      m_packetQueue := []
      m_pAvCodecCtx := avcodec_flush_buffers e.self.m_pAvCodecCtx
      m_isDiscontinuous := true } ∧
    e.self.Flush.m_nextPacketPts = e.self.m_nextPacketPts ∧
    e.self.Flush.m_startOffset = e.self.m_startOffset ∧
    e.self.Flush.m_isEnabled = e.self.m_isEnabled ∧
    FFmpegInteropMSS.seekFlush e.self = e.self.Flush ∧
    e.self.DisableStream = { e.self.Flush with m_isEnabled := false } ∧
    ∃ r, MediaSampleProvider.GetNextPacket
        { e with self := e.self.Flush.QueuePacket packet } 0 0 = some r ∧
      r.hr = S_OK ∧ r.avPacket = some packet ∧
      r.packetPts = e.self.m_nextPacketPts := by
  have hflush := Flush_eq e.self
  refine ⟨hflush, by rw [hflush], by rw [hflush], by rw [hflush],
    seekFlush_eq_Flush e.self, rfl, ?_⟩
  have hqueue : (e.self.Flush.QueuePacket packet).m_packetQueue = [packet] := by
    unfold MediaSampleProvider.QueuePacket
    rw [hflush]
    simp [hen]
  have hnext : (e.self.Flush.QueuePacket packet).m_nextPacketPts = e.self.m_nextPacketPts := by
    rw [SameButQueue_nextPts (QueuePacket_sameButQueue _ _), hflush]
  have hne : ({ e with self := e.self.Flush.QueuePacket packet } : Env).self.m_packetQueue.isEmpty
      = false := by
    show (e.self.Flush.QueuePacket packet).m_packetQueue.isEmpty = false
    rw [hqueue]; rfl
  refine ⟨MediaSampleProvider.GetNextPacket.take
    { e with self := e.self.Flush.QueuePacket packet } 0 0, ?_, ?_⟩
  · unfold MediaSampleProvider.GetNextPacket
    rw [GetNextPacket_loop_nonempty _ _ hne]
  · rw [GetNextPacket_take_cons { e with self := e.self.Flush.QueuePacket packet } packet []
      0 0 hqueue]
    refine ⟨rfl, rfl, ?_⟩
    simp only [hnopts, ne_eq, not_true_eq_false, if_false]
    exact hnext

/-- C18 at a concrete input: the prediction 1000 of `demoProvider` survives the
flush of two queued packets and stamps the next packet without pts. -/
theorem Flush_keeps_prediction_witness :
    let e : Env := { demoEnv with self :=
      { demoProvider with m_packetQueue := [⟨0, 1, 2, 3⟩, ⟨0, 4, 5, 6⟩] } }
    e.self.m_isEnabled = true ∧
    e.self.Flush.m_nextPacketPts = 1000 ∧
    ∃ r, MediaSampleProvider.GetNextPacket
        { e with self := e.self.Flush.QueuePacket ⟨0, AV_NOPTS_VALUE, 3000, 9⟩ } 0 0 = some r ∧
      r.packetPts = 1000 := by
  intro e
  have h := Flush_keeps_prediction e ⟨0, AV_NOPTS_VALUE, 3000, 9⟩ rfl rfl
  obtain ⟨r, hr, _, _, hp⟩ := h.2.2.2.2.2.2
  exact ⟨rfl, h.2.1, r, hr, hp⟩

/-! ## The two start-offset paths -/

/-- Truncation toward zero commutes with negation. -/
theorem truncQ_neg (x : ℚ) : truncQ (-x) = -truncQ x := by
  unfold truncQ
  rcases lt_trichotomy x 0 with h | h | h
  · have h1 : 0 ≤ -x := by linarith
    have h2 : ¬ 0 ≤ x := by linarith
    rw [if_pos h1, if_neg h2, Int.floor_neg]
  · subst h
    simp
  · have h1 : ¬ 0 ≤ -x := by linarith
    have h2 : 0 ≤ x := by linarith
    rw [if_neg h1, if_pos h2, Int.ceil_neg]

/-- A number that truncates to a positive integer lies less than one above it. -/
theorem truncQ_pos_bounds (x : ℚ) (S : Int) (hS : 0 < S) (h : truncQ x = S) :
    (S : ℚ) ≤ x ∧ x < S + 1 := by
  unfold truncQ at h
  by_cases hx : 0 ≤ x
  · rw [if_pos hx] at h
    rw [← h]
    exact ⟨Int.floor_le x, Int.lt_floor_add_one x⟩
  · rw [if_neg hx] at h
    exfalso
    have hc : ⌈x⌉ ≤ 0 := by
      rw [Int.ceil_le]
      push_cast
      linarith
    omega

/-- The core of the comparison of the two paths, for a positive start time:
if `y` and `z` are `x` and `10 * x` up to a relative error of 2^-53 and `y`
truncates to `S` with `0 < S ≤ 4.5 * 10^14`, then `z` truncates to a value between
`10 * S - 1` and `10 * S + 10`. -/
theorem trunc_scaled_pos (x y z : ℚ) (S : Int) (hS : 0 < S) (hS2 : S ≤ 450000000000000)
    (hy : |y - x| ≤ |x| / 9007199254740992) (hz : |z - 10 * x| ≤ |10 * x| / 9007199254740992)
    (h : truncQ y = S) : 10 * S - 1 ≤ truncQ z ∧ truncQ z ≤ 10 * S + 10 := by
  obtain ⟨hy1, hy2⟩ := truncQ_pos_bounds y S hS h
  have hS1 : (1 : ℚ) ≤ S := by exact_mod_cast hS
  have hS3 : (S : ℚ) ≤ 450000000000000 := by exact_mod_cast hS2
  have hxpos : 0 < x := by
    by_contra hneg
    have hx0 : x ≤ 0 := not_lt.mp hneg
    rw [abs_of_nonpos hx0, abs_le] at hy
    linarith [hy.2]
  have h10 : |10 * x| = 10 * x := abs_of_pos (by linarith)
  rw [abs_of_pos hxpos, abs_le] at hy
  rw [h10, abs_le] at hz
  obtain ⟨hyl, hyu⟩ := hy
  obtain ⟨hzl, hzu⟩ := hz
  have hzlow : ((10 * S - 1 : Int) : ℚ) ≤ z := by
    push_cast
    linarith
  have hzhigh : z < ((10 * S + 11 : Int) : ℚ) := by
    push_cast
    linarith
  have hzpos : 0 ≤ z := by
    have : (0 : ℚ) ≤ ((10 * S - 1 : Int) : ℚ) := by
      push_cast
      linarith
    linarith
  unfold truncQ
  rw [if_pos hzpos]
  constructor
  · exact Int.le_floor.mpr hzlow
  · have := Int.floor_lt.mpr hzhigh
    omega

/-- The same for a start time of either sign: the truncated tenfold value is
within ten of ten times the truncated value. -/
theorem trunc_scaled_bounds (x y z : ℚ) (S : Int) (hS0 : S ≠ 0) (hS2 : |S| ≤ 450000000000000)
    (hy : |y - x| ≤ |x| / 9007199254740992) (hz : |z - 10 * x| ≤ |10 * x| / 9007199254740992)
    (h : truncQ y = S) :
    |truncQ z - 10 * S| ≤ 10 ∧ (0 < S → 10 * S - 1 ≤ truncQ z ∧ truncQ z ≤ 10 * S + 10) := by
  rw [abs_le] at hS2
  rcases lt_or_gt_of_ne hS0 with hneg | hpos
  · have hy' : |(-y) - (-x)| ≤ |(-x)| / 9007199254740992 := by
      have e : (-y) - (-x) = -(y - x) := by ring
      rw [e, abs_neg, abs_neg]
      exact hy
    have hz' : |(-z) - 10 * (-x)| ≤ |10 * (-x)| / 9007199254740992 := by
      have e : (-z) - 10 * (-x) = -(z - 10 * x) := by ring
      have e2 : 10 * (-x) = -(10 * x) := by ring
      rw [e, e2, abs_neg, abs_neg]
      exact hz
    have h' : truncQ (-y) = -S := by rw [truncQ_neg, h]
    have hb := trunc_scaled_pos (-x) (-y) (-z) (-S) (by omega) (by omega) hy' hz' h'
    rw [truncQ_neg] at hb
    constructor
    · rw [abs_le]
      constructor <;> omega
    · intro hc
      omega
  · have hb := trunc_scaled_pos x y z S hpos (by omega) hy hz h
    constructor
    · rw [abs_le]
      constructor <;> omega
    · intro _
      exact hb

set_option maxRecDepth 100000 in
/-- C19, as stated, fails for the constructor, which computes in `double`:
with the time-base 1/1000000, stream start 5 and container start 5 it takes
the precise path and stores 49, below `10 * 5`; with stream start 1720953224
and container start 1720953223 it takes the precise path and stores
17209532240, which is `10 * S + 10`. For very large start times the distance
grows further: with stream start and container start 7206380590767158 the
offset stored is `10 * S - 12`. -/
theorem startOffset_double_outside_nine_ticks :
    (MediaSampleProvider.ctor ieeeDouble ⟨5, 0, [⟨⟨1, 1000000⟩, 5⟩], []⟩ 0
      { demoProvider with m_startOffset := 0 }).m_startOffset = 49 ∧
    ¬ (10 * 5 ≤ (49 : Int)) ∧
    (MediaSampleProvider.ctor ieeeDouble
      ⟨1720953223, 0, [⟨⟨1, 1000000⟩, 1720953224⟩], []⟩ 0
      { demoProvider with m_startOffset := 0 }).m_startOffset = 17209532240 ∧
    ¬ (|(17209532240 : Int) - 10 * 1720953223| ≤ 9) ∧
    (MediaSampleProvider.ctor ieeeDouble
      ⟨7206380590767158, 0, [⟨⟨1, 1000000⟩, 7206380590767158⟩], []⟩ 0
      { demoProvider with m_startOffset := 0 }).m_startOffset = 72063805907671568 ∧
    (72063805907671568 : Int) = 10 * 7206380590767158 - 12 := by
  decide

/-- C19, amended: let the two products of the constructor be rounded as double
arithmetic rounds them (relative error at most 2^-53, casts truncating toward
zero), let the container start time `S` be at most 4.5 * 10^14 microseconds
in magnitude, and let the start offset be zero before the constructor runs (for
the case `S = 0`, in which it assigns nothing). Then the start offset the
constructor chooses differs from `10 * S` by at most 10; and when `S` is
non-negative and the precise path is taken, it lies between `10 * S - 1` and
`10 * S + 10`. -/
theorem startOffset_within_ten_ticks {D : Type} (F : DoubleOps D) (val : D → ℚ)
    (avFormatCtx : AVFormatContext) (streamIndex : Int) (fields : MediaSampleProvider)
    (hinit : avFormatCtx.start_time ≠ 0 ∨ fields.m_startOffset = 0)
    (hS : |avFormatCtx.start_time| ≤ 450000000000000)
    (hround : StartOffsetRounding F val
      (F.mul (av_q2d F (avFormatCtx.stream streamIndex).time_base)
        (F.ofInt (avFormatCtx.stream streamIndex).start_time))) :
    let S := avFormatCtx.start_time
    let st := avFormatCtx.stream streamIndex
    let offset := (MediaSampleProvider.ctor F avFormatCtx streamIndex fields).m_startOffset
    |offset - 10 * S| ≤ 10 ∧
    (0 ≤ S →
      S = F.toLONGLONG (F.mul (F.mul (av_q2d F st.time_base) (F.ofInt st.start_time))
        (F.ofInt 1000000)) →
      10 * S - 1 ≤ offset ∧ offset ≤ 10 * S + 10) := by
  obtain ⟨h6, h7, c6, c7⟩ := hround
  have hrange : InInt64 (avFormatCtx.start_time * 10) := by
    rw [abs_le] at hS
    unfold InInt64
    constructor <;> linarith [hS.1, hS.2]
  have hcoarse : mul64 avFormatCtx.start_time 10 = 10 * avFormatCtx.start_time := by
    unfold mul64
    rw [wrap64_of_inInt64 _ hrange]
    ring
  have e7 : val (F.mul (av_q2d F (avFormatCtx.stream streamIndex).time_base)
      (F.ofInt (avFormatCtx.stream streamIndex).start_time)) * 10000000
      = 10 * (val (F.mul (av_q2d F (avFormatCtx.stream streamIndex).time_base)
        (F.ofInt (avFormatCtx.stream streamIndex).start_time)) * 1000000) := by ring
  rw [e7] at h7
  simp only
  unfold MediaSampleProvider.ctor
  simp only
  by_cases hS0 : avFormatCtx.start_time = 0
  · have h0 : fields.m_startOffset = 0 := by
      rcases hinit with h | h
      · exact absurd hS0 h
      · exact h
    rw [if_neg (by simpa using hS0)]
    simp only [h0, hS0]
    refine ⟨by norm_num, ?_⟩
    intro _ _
    constructor <;> norm_num
  · rw [if_pos hS0]
    by_cases heq : avFormatCtx.start_time
        = F.toLONGLONG (F.mul (F.mul (av_q2d F (avFormatCtx.stream streamIndex).time_base)
          (F.ofInt (avFormatCtx.stream streamIndex).start_time)) (F.ofInt 1000000))
    · rw [if_pos heq]
      simp only
      have htr : truncQ (val (F.mul (F.mul (av_q2d F (avFormatCtx.stream streamIndex).time_base)
          (F.ofInt (avFormatCtx.stream streamIndex).start_time)) (F.ofInt 1000000)))
          = avFormatCtx.start_time := by
        rw [← c6]
        exact heq.symm
      have hb := trunc_scaled_bounds _ _ _ avFormatCtx.start_time hS0 hS h6 h7 htr
      rw [c7]
      refine ⟨hb.1, ?_⟩
      intro hnn _
      exact hb.2 (lt_of_le_of_ne hnn (Ne.symm hS0))
    · rw [if_neg heq]
      simp only [hcoarse]
      refine ⟨by norm_num, ?_⟩
      intro _ h
      exact absurd h heq

set_option maxRecDepth 100000 in
/-- C19, amended, at the two inputs above, in the arithmetic of the program.
With the time-base 1/1000000, stream start 5 and container start 5 the stream
start in seconds is the double 5902958103587056 / 2^70, the two products are
the doubles 5 and 7036874417766399 / 2^47 (just below 50), and the offset
stored is 49, which is `10 * 5 - 1`. With stream start 1720953224 and container
start 1720953223 the products are the doubles 7218200991236095 / 2^22 (just
below 1720953224) and 17209532240, and the offset stored is 17209532240, which
is `10 * 1720953223 + 10`. In both cases the products are within the rounding
error allowed. -/
theorem startOffset_within_ten_ticks_witness :
    StartOffsetRounding ieeeDouble fractionValue
      (ieeeDouble.mul (av_q2d ieeeDouble ⟨1, 1000000⟩) (ieeeDouble.ofInt 5)) ∧
    (MediaSampleProvider.ctor ieeeDouble ⟨5, 0, [⟨⟨1, 1000000⟩, 5⟩], []⟩ 0
      { demoProvider with m_startOffset := 0 }).m_startOffset = 49 ∧
    10 * 5 - 1 ≤ (MediaSampleProvider.ctor ieeeDouble ⟨5, 0, [⟨⟨1, 1000000⟩, 5⟩], []⟩ 0
      { demoProvider with m_startOffset := 0 }).m_startOffset ∧
    StartOffsetRounding ieeeDouble fractionValue
      (ieeeDouble.mul (av_q2d ieeeDouble ⟨1, 1000000⟩) (ieeeDouble.ofInt 1720953224)) ∧
    (MediaSampleProvider.ctor ieeeDouble
      ⟨1720953223, 0, [⟨⟨1, 1000000⟩, 1720953224⟩], []⟩ 0
      { demoProvider with m_startOffset := 0 }).m_startOffset = 17209532240 ∧
    (MediaSampleProvider.ctor ieeeDouble
      ⟨1720953223, 0, [⟨⟨1, 1000000⟩, 1720953224⟩], []⟩ 0
      { demoProvider with m_startOffset := 0 }).m_startOffset ≤ 10 * 1720953223 + 10 := by
  have hw : ieeeDouble.mul (av_q2d ieeeDouble ⟨1, 1000000⟩) (ieeeDouble.ofInt 5)
      = (5902958103587056, 1180591620717411303424) := by decide
  have hy : ieeeDouble.mul (5902958103587056, 1180591620717411303424)
      (ieeeDouble.ofInt 1000000) = (5629499534213120, 1125899906842624) := by decide
  have hz : ieeeDouble.mul (5902958103587056, 1180591620717411303424)
      (ieeeDouble.ofInt 10000000) = (7036874417766399, 140737488355328) := by decide
  have hround : StartOffsetRounding ieeeDouble fractionValue
      (ieeeDouble.mul (av_q2d ieeeDouble ⟨1, 1000000⟩) (ieeeDouble.ofInt 5)) := by
    rw [hw]
    refine ⟨?_, ?_, ?_, ?_⟩
    · rw [hy, abs_le]
      unfold fractionValue
      norm_num [abs_of_pos]
    · rw [hz, abs_le]
      unfold fractionValue
      norm_num [abs_of_pos]
    · rw [hy]
      have hv : fractionValue (5629499534213120, 1125899906842624) = 5 := by
        unfold fractionValue
        norm_num
      rw [hv]
      unfold truncQ
      norm_num
      decide
    · rw [hz]
      have hfloor : ⌊fractionValue (7036874417766399, 140737488355328)⌋ = 49 := by
        rw [Int.floor_eq_iff]
        unfold fractionValue
        constructor <;> norm_num
      have hpos : (0 : ℚ) ≤ fractionValue (7036874417766399, 140737488355328) := by
        unfold fractionValue
        norm_num
      unfold truncQ
      rw [if_pos hpos, hfloor]
      decide
  have hw2 : ieeeDouble.mul (av_q2d ieeeDouble ⟨1, 1000000⟩) (ieeeDouble.ofInt 1720953224)
      = (7568832322586380, 4398046511104) := by decide
  have hy2 : ieeeDouble.mul (7568832322586380, 4398046511104)
      (ieeeDouble.ofInt 1000000) = (7218200991236095, 4194304) := by decide
  have hz2 : ieeeDouble.mul (7568832322586380, 4398046511104)
      (ieeeDouble.ofInt 10000000) = (4511375619522560, 262144) := by decide
  have hround2 : StartOffsetRounding ieeeDouble fractionValue
      (ieeeDouble.mul (av_q2d ieeeDouble ⟨1, 1000000⟩) (ieeeDouble.ofInt 1720953224)) := by
    rw [hw2]
    refine ⟨?_, ?_, ?_, ?_⟩
    · rw [hy2, abs_le]
      unfold fractionValue
      norm_num [abs_of_pos]
    · rw [hz2, abs_le]
      unfold fractionValue
      norm_num [abs_of_pos]
    · rw [hy2]
      have hfloor : ⌊fractionValue (7218200991236095, 4194304)⌋ = 1720953223 := by
        rw [Int.floor_eq_iff]
        unfold fractionValue
        constructor <;> norm_num
      have hpos : (0 : ℚ) ≤ fractionValue (7218200991236095, 4194304) := by
        unfold fractionValue
        norm_num
      unfold truncQ
      rw [if_pos hpos, hfloor]
      decide
    · rw [hz2]
      have hv : fractionValue (4511375619522560, 262144) = 17209532240 := by
        unfold fractionValue
        norm_num
      rw [hv]
      unfold truncQ
      norm_num
      decide
  have h := startOffset_within_ten_ticks ieeeDouble fractionValue
    ⟨5, 0, [⟨⟨1, 1000000⟩, 5⟩], []⟩ 0 { demoProvider with m_startOffset := 0 }
    (Or.inl (by decide)) (by decide) hround
  have h2 := startOffset_within_ten_ticks ieeeDouble fractionValue
    ⟨1720953223, 0, [⟨⟨1, 1000000⟩, 1720953224⟩], []⟩ 0 { demoProvider with m_startOffset := 0 }
    (Or.inl (by decide)) (by decide) hround2
  exact ⟨hround, by decide, (h.2 (by decide) (by decide)).1, hround2, by decide,
    (h2.2 (by decide) (by decide)).2⟩

end FFmpegInterop
